import Mathlib

/-!
Verification of the otlp-data-analyzer repository.

This file gives a shallow embedding, in Lean, of the three Python modules of
the repository

  * `src/otlp_analyzer/common/timestamp_parser.py`
  * `src/otlp_analyzer/common/otlp_parser.py`
  * `src/otlp_analyzer/tools/check_timestamp.py`

and proves (or refutes) the frozen specification claims about them.

Modelling conventions, used throughout:

  * Python strings are Lean `String`s; most functions work on the underlying
    `List Char` so that proofs are plain list inductions.
  * Python `int` is `ℤ` (arbitrary precision, as in Python).
  * Python `float` is idealized as the exact value of the parsed decimal
    literal, represented as `mantissa * 10 ^ exponent` (`PyFloat`).  The code
    multiplies floats by `1e9`/`1e6` and rounds; binary64 rounding noise
    (sub-microsecond on all values relevant here) is idealized away, exactly
    as the spec's own "±1000 ns tolerance" clause anticipates.
  * Python `round` is round-half-to-even, embedded as `pyRound`.
  * `json.loads` results are values of the inductive `JVal`; a raw input line
    is abstracted as the outcome of `json.loads` on it (`JLine`).
  * Exceptions are `Except`/`Option`: a raised `TimestampParseError` is
    `Except.error ()`, a raised `OTLPParseError` is `Except.error (.otlp msg)`,
    and an uncaught Python `AttributeError` (which `parse_otlp_line` hits when
    the top-level JSON value is not an object) is `Except.error .attr`.
-/

/-! ### Character and string helpers (Python `str` operations) -/

/-- Python `str.strip()` whitespace characters (ASCII subset; exotic Unicode
whitespace is not modelled). -/
def pyIsSpace (c : Char) : Bool :=
  c == ' ' || c == '\t' || c == '\n' || c == '\r' || c == '\x0b' || c == '\x0c'

/-- Python `str.strip()` on a character list. -/
def stripChars (cs : List Char) : List Char :=
  ((cs.dropWhile pyIsSpace).reverse.dropWhile pyIsSpace).reverse

/-- Python `c in s` for a single character. -/
def hasChar (cs : List Char) (c : Char) : Bool :=
  cs.any (fun x => x == c)

/-- Numeric value of an ASCII digit. -/
def digitVal (c : Char) : ℕ := c.toNat - 48

/-- Value of a list of ASCII digits read in base 10. -/
def natOfDigits (cs : List Char) : ℕ :=
  cs.foldl (fun a c => a * 10 + digitVal c) 0

/-- Python `int(text)` on already-whitespace-stripped text: an optional sign
followed by a nonempty run of ASCII digits.  (Underscore digit grouping and
non-ASCII digits, which CPython also accepts, are not modelled.)  `none` is a
raised `ValueError`. -/
def intOfChars (cs : List Char) : Option ℤ :=
  match cs with
  | '+' :: r => if r ≠ [] ∧ r.all Char.isDigit then some (natOfDigits r : ℤ) else none
  | '-' :: r => if r ≠ [] ∧ r.all Char.isDigit then some (-(natOfDigits r : ℤ)) else none
  | r => if r ≠ [] ∧ r.all Char.isDigit then some (natOfDigits r : ℤ) else none

/-- Python `int(text)` including its own whitespace stripping (used for the
per-record `timeUnixNano` strings, which are not pre-stripped). -/
def pyIntOfString (s : String) : Option ℤ :=
  intOfChars (stripChars s.data)

/-- The idealized Python float: the exact value `man * 10 ^ exp` of the parsed
decimal literal. -/
structure PyFloat where
  man : ℤ
  exp : ℤ

/-- The exact value of a `PyFloat` as a rational (specification-side view). -/
def PyFloat.val (x : PyFloat) : ℚ := (x.man : ℚ) * 10 ^ x.exp

/-- `x < 10 ^ k` on the idealized float, computed over `ℤ` after clearing the
power-of-ten denominator. -/
def pyFloatLtPow10 (x : PyFloat) (k : ℕ) : Bool :=
  let s := (-x.exp).toNat
  decide (x.man * 10 ^ (x.exp + s).toNat < 10 ^ (k + s))

/-- Multiplication of the idealized float by `10 ^ k` (the code's `x * 1e9` /
`x * 1e6`), which is exact. -/
def pyFloatMulPow10 (k : ℕ) (x : PyFloat) : PyFloat := ⟨x.man, x.exp + k⟩

/-- Python `round` on the idealized float: round half to even. -/
def pyRound (x : PyFloat) : ℤ :=
  if 0 ≤ x.exp then x.man * 10 ^ x.exp.toNat
  else
    let d : ℤ := 10 ^ (-x.exp).toNat
    let f := Int.ediv x.man d
    let r := Int.emod x.man d
    if 2 * r < d then f
    else if d < 2 * r then f + 1
    else if f % 2 = 0 then f else f + 1

/-- Python `float(text)` for the texts reachable in this code base: the caller
only invokes it when the text contains a `'.'`, so only the
`[sign] digits [. digits] [(e|E) [sign] digits]` shapes with a dot are
modelled, as the exact decimal value.  `none` is a raised `ValueError`. -/
def floatOfChars (cs : List Char) : Option PyFloat :=
  let sgncs : ℤ × List Char :=
    match cs with
    | '+' :: r => (1, r)
    | '-' :: r => (-1, r)
    | r => (1, r)
  let sgn := sgncs.1
  let ip := sgncs.2.takeWhile Char.isDigit
  let cs2 := sgncs.2.dropWhile Char.isDigit
  match cs2 with
  | '.' :: cs3 =>
    let fp := cs3.takeWhile Char.isDigit
    let cs4 := cs3.dropWhile Char.isDigit
    if ip = [] ∧ fp = [] then none
    else
      let man : ℤ := sgn * ((natOfDigits ip : ℤ) * 10 ^ fp.length + (natOfDigits fp : ℤ))
      match cs4 with
      | [] => some ⟨man, -(fp.length : ℤ)⟩
      | 'e' :: cs5 => (intOfChars cs5).map (fun ex => ⟨man, ex - fp.length⟩)
      | 'E' :: cs5 => (intOfChars cs5).map (fun ex => ⟨man, ex - fp.length⟩)
      | _ => none
  | _ => none

/-! ### `timestamp_parser._parse_unix_timestamp` -/

/-- The `Union[int, float]` argument of `_parse_unix_timestamp`. -/
inductive PyNum where
  | intv (n : ℤ)
  | floatv (q : PyFloat)

/-- `_parse_unix_timestamp` (timestamp_parser.py lines 54-84): magnitude-based
unit inference with exact integer multiplies on the `int` branch and
`round(x * 1e9)` / `round(x * 1e6)` / `round(x)` on the `float` branch. -/
def parse_unix_timestamp : PyNum → ℤ
  | .intv n => if n < 10 ^ 10 then n * 10 ^ 9 else if n < 10 ^ 13 then n * 10 ^ 6 else n
  | .floatv q =>
    if pyFloatLtPow10 q 10 then pyRound (pyFloatMulPow10 9 q)
    else if pyFloatLtPow10 q 13 then pyRound (pyFloatMulPow10 6 q)
    else pyRound q

/-! ### `timestamp_parser._parse_iso8601`

`datetime.strptime` is embedded format-by-format for the four format strings
the source tries, following CPython's `_strptime` regexes: `%Y` is exactly four
digits; `%m`, `%d`, `%H`, `%M`, `%S` accept one or two digits with the
per-field two-digit ranges of `_strptime`; `%f` is one to six digits
(zero-padded to microseconds); `%z` accepts `Z`, `±HHMM`, `±HH:MM`, optionally
`:SS` seconds, rejected when the offset reaches 24 hours; literal `T`/`Z`
match case-insensitively (CPython compiles the format with `re.IGNORECASE`).
`datetime` construction rejects year 0, out-of-range days and seconds ≥ 60.
-/

/-- Exactly four ASCII digits (`%Y`). -/
def parse4Digits : List Char → Option (ℕ × List Char)
  | a :: b :: c :: d :: rest =>
    if a.isDigit ∧ b.isDigit ∧ c.isDigit ∧ d.isDigit then
      some (digitVal a * 1000 + digitVal b * 100 + digitVal c * 10 + digitVal d, rest)
    else none
  | _ => none

/-- One-or-two digit numeric field: a two-digit read is taken when `ok2` allows
the digit pair, else a one-digit read when `ok1` allows it (mirroring the
ordered regex alternations of `_strptime`). -/
def parse2or1 (ok2 : ℕ → ℕ → Bool) (ok1 : ℕ → Bool) : List Char → Option (ℕ × List Char)
  | c1 :: c2 :: rest =>
    if c1.isDigit ∧ c2.isDigit ∧ ok2 (digitVal c1) (digitVal c2) then
      some (digitVal c1 * 10 + digitVal c2, rest)
    else if c1.isDigit ∧ ok1 (digitVal c1) then some (digitVal c1, c2 :: rest)
    else none
  | [c1] => if c1.isDigit ∧ ok1 (digitVal c1) then some (digitVal c1, []) else none
  | [] => none

/-- `%m`: `1[0-2]|0[1-9]|[1-9]`. -/
def parseMonth : List Char → Option (ℕ × List Char) :=
  parse2or1 (fun a b => (a == 1 && decide (b ≤ 2)) || (a == 0 && decide (1 ≤ b)))
    (fun a => decide (1 ≤ a))

/-- `%d`: `3[01]|[12]\d|0[1-9]|[1-9]`. -/
def parseDay : List Char → Option (ℕ × List Char) :=
  parse2or1
    (fun a b => (a == 3 && decide (b ≤ 1)) || a == 1 || a == 2 || (a == 0 && decide (1 ≤ b)))
    (fun a => decide (1 ≤ a))

/-- `%H`: `2[0-3]|[0-1]\d|\d`. -/
def parseHour : List Char → Option (ℕ × List Char) :=
  parse2or1 (fun a b => (a == 2 && decide (b ≤ 3)) || decide (a ≤ 1)) (fun _ => true)

/-- `%M`: `[0-5]\d|\d`. -/
def parseMinute : List Char → Option (ℕ × List Char) :=
  parse2or1 (fun a _ => decide (a ≤ 5)) (fun _ => true)

/-- `%S`: `6[0-1]|[0-5]\d|\d` (leap seconds pass the regex; `datetime`
construction rejects them afterwards). -/
def parseSecond : List Char → Option (ℕ × List Char) :=
  parse2or1 (fun a b => (a == 6 && decide (b ≤ 1)) || decide (a ≤ 5)) (fun _ => true)

/-- `%f`: one to six digits, zero-padded on the right to microseconds.  Seven
or more digits make every tried format fail in the source (the regex takes six
and the following literal/offset can never match the leftover digit), so that
case is `none` directly. -/
def parseFrac (cs : List Char) : Option (ℕ × List Char) :=
  let ds := cs.takeWhile Char.isDigit
  let rest := cs.dropWhile Char.isDigit
  if 1 ≤ ds.length ∧ ds.length ≤ 6 then
    some (natOfDigits ds * 10 ^ (6 - ds.length), rest)
  else none

/-- The parsed components handed to the `datetime` constructor: `zoff` is the
`%z` utc-offset in seconds, `none` for a naive result (which the source then
tags as UTC via `dt.replace(tzinfo=timezone.utc)`). -/
structure PyDT where
  year : ℕ
  month : ℕ
  day : ℕ
  hour : ℕ
  minute : ℕ
  second : ℕ
  usec : ℕ
  zoff : Option ℤ

/-- `%z` matched against the entire remaining input: `Z`, or
`[+-]HH(:)?MM(:SS)?` with the offset required to be under 24 hours
(`datetime.timezone` raises otherwise; fractional offset seconds are not
modelled). -/
def parseZoff (cs : List Char) : Option ℤ :=
  match cs with
  | ['Z'] => some 0
  | sgn :: h1 :: h2 :: rest =>
    if (sgn == '+' || sgn == '-') ∧ h1.isDigit ∧ h2.isDigit then
      let hh := digitVal h1 * 10 + digitVal h2
      let fin : ℕ → Option ℤ := fun offAbs =>
        if offAbs < 86400 then some (if sgn == '-' then -(offAbs : ℤ) else (offAbs : ℤ))
        else none
      match rest with
      | ':' :: m1 :: m2 :: rest2 =>
        if m1.isDigit ∧ m2.isDigit then
          match rest2 with
          | [] => fin (hh * 3600 + (digitVal m1 * 10 + digitVal m2) * 60)
          | ':' :: s1 :: s2 :: [] =>
            if s1.isDigit ∧ s2.isDigit then
              fin (hh * 3600 + (digitVal m1 * 10 + digitVal m2) * 60
                + digitVal s1 * 10 + digitVal s2)
            else none
          | _ => none
        else none
      | m1 :: m2 :: rest2 =>
        if m1.isDigit ∧ m2.isDigit then
          match rest2 with
          | [] => fin (hh * 3600 + (digitVal m1 * 10 + digitVal m2) * 60)
          | ':' :: s1 :: s2 :: [] =>
            if s1.isDigit ∧ s2.isDigit then
              fin (hh * 3600 + (digitVal m1 * 10 + digitVal m2) * 60
                + digitVal s1 * 10 + digitVal s2)
            else none
          | _ => none
        else none
      | _ => none
    else none
  | _ => none

/-- The common `"%Y-%m-%dT%H:%M:%S"` prefix of all four formats (`T` matched
case-insensitively). -/
def parsePrefix (cs : List Char) : Option (PyDT × List Char) :=
  match parse4Digits cs with
  | none => none
  | some (y, r1) =>
    match r1 with
    | [] => none
    | c1 :: r2 =>
      if c1 = '-' then
        match parseMonth r2 with
        | none => none
        | some (m, r3) =>
          match r3 with
          | [] => none
          | c2 :: r4 =>
            if c2 = '-' then
              match parseDay r4 with
              | none => none
              | some (d, r5) =>
                match r5 with
                | [] => none
                | t :: r6 =>
                  if t = 'T' ∨ t = 't' then
                    match parseHour r6 with
                    | none => none
                    | some (hh, r7) =>
                      match r7 with
                      | [] => none
                      | c3 :: r8 =>
                        if c3 = ':' then
                          match parseMinute r8 with
                          | none => none
                          | some (mi, r9) =>
                            match r9 with
                            | [] => none
                            | c4 :: r10 =>
                              if c4 = ':' then
                                match parseSecond r10 with
                                | none => none
                                | some (ss, r11) =>
                                  some (⟨y, m, d, hh, mi, ss, 0, none⟩, r11)
                              else none
                        else none
                  else none
            else none
      else none

/-- Gregorian leap year. -/
def isLeapYear (y : ℕ) : Bool :=
  y % 4 == 0 && (y % 100 != 0 || y % 400 == 0)

/-- Length of a month, as enforced by the `datetime` constructor. -/
def daysInMonth (y m : ℕ) : ℕ :=
  if m = 2 then (if isLeapYear y then 29 else 28)
  else if m = 4 ∨ m = 6 ∨ m = 9 ∨ m = 11 then 30
  else 31

/-- Days from 1970-01-01 to the given civil date (proleptic Gregorian,
`y ≥ 1`); the standard days-from-civil computation underlying
`datetime.timestamp()`. -/
def daysFromCivil (y m d : ℕ) : ℤ :=
  let yi : ℤ := if m ≤ 2 then (y : ℤ) - 1 else (y : ℤ)
  let era : ℤ := yi / 400
  let yoe : ℤ := yi - era * 400
  let mp : ℤ := ((m : ℤ) + 9) % 12
  let doy : ℤ := (153 * mp + 2) / 5 + (d : ℤ) - 1
  let doe : ℤ := yoe * 365 + yoe / 4 - yoe / 100 + doy
  era * 146097 + doe - 719468

/-- The `datetime` constructor's range validation on the components the format
regexes do not already pin down: year ≥ 1 (`%Y` caps it at 9999), day within
the month, second ≤ 59. -/
def pyDTValid (dt : PyDT) : Bool :=
  decide (1 ≤ dt.year) && decide (dt.day ≤ daysInMonth dt.year dt.month)
    && decide (dt.second ≤ 59)

/-- `round(dt.timestamp() * 1e9)` for an aware datetime.  With exact
arithmetic `dt.timestamp()` is `epoch_seconds + usec/1e6 - utcoffset`, so the
rounded product is this exact integer (binary64 noise is sub-microsecond and
idealized away). -/
def dtToNanos (dt : PyDT) : ℤ :=
  (daysFromCivil dt.year dt.month dt.day * 86400
    + (dt.hour : ℤ) * 3600 + (dt.minute : ℤ) * 60 + (dt.second : ℤ)
    - dt.zoff.getD 0) * 10 ^ 9 + (dt.usec : ℤ) * 1000

/-- `datetime` construction followed by `timestamp()` conversion; `none` is a
raised `ValueError` (caught by the per-format loop in the source). -/
def finishDT (dt : PyDT) : Option ℤ :=
  if pyDTValid dt then some (dtToNanos dt) else none

/-- `strptime` with `"%Y-%m-%dT%H:%M:%S.%fZ"`. -/
def strptimeFracZ (cs : List Char) : Option ℤ :=
  match parsePrefix cs with
  | none => none
  | some (dt, r0) =>
    match r0 with
    | [] => none
    | c :: r =>
      if c = '.' then
        match parseFrac r with
        | some (us, rz) =>
          if rz = ['Z'] ∨ rz = ['z'] then finishDT { dt with usec := us } else none
        | none => none
      else none

/-- `strptime` with `"%Y-%m-%dT%H:%M:%S.%f%z"`. -/
def strptimeFracOff (cs : List Char) : Option ℤ :=
  match parsePrefix cs with
  | none => none
  | some (dt, r0) =>
    match r0 with
    | [] => none
    | c :: r =>
      if c = '.' then
        match parseFrac r with
        | some (us, rz) =>
          match parseZoff rz with
          | some z => finishDT { dt with usec := us, zoff := some z }
          | none => none
        | none => none
      else none

/-- `strptime` with `"%Y-%m-%dT%H:%M:%SZ"`. -/
def strptimeZ (cs : List Char) : Option ℤ :=
  match parsePrefix cs with
  | some (dt, rz) => if rz = ['Z'] ∨ rz = ['z'] then finishDT dt else none
  | none => none

/-- `strptime` with `"%Y-%m-%dT%H:%M:%S%z"`. -/
def strptimeOff (cs : List Char) : Option ℤ :=
  match parsePrefix cs with
  | some (dt, rz) =>
    match parseZoff rz with
    | some z => finishDT { dt with zoff := some z }
    | none => none
  | none => none

/-- `re.match(r"^\d{4}-\d{2}-\d{2}$", s)` (timestamp_parser.py line 103). -/
def isBareDate (cs : List Char) : Bool :=
  match cs with
  | [a, b, c, d, e, f, g, h, i, j] =>
    a.isDigit && b.isDigit && c.isDigit && d.isDigit && e == '-' &&
      f.isDigit && g.isDigit && h == '-' && i.isDigit && j.isDigit
  | _ => false

/-- `s.endswith("Z")`. -/
def endsZ (cs : List Char) : Bool :=
  match cs.reverse with
  | 'Z' :: _ => true
  | _ => false

/-- `s.endswith("+00:00") or s.endswith("-00:00")`. -/
def endsPM0000 (cs : List Char) : Bool :=
  match cs.reverse with
  | '0' :: '0' :: ':' :: '0' :: '0' :: s :: _ => s == '+' || s == '-'
  | _ => false

/-- `re.search(r"[+-]\d{2}:\d{2}$", s)`. -/
def endsOffsetShape (cs : List Char) : Bool :=
  match cs.reverse with
  | m2 :: m1 :: ':' :: h2 :: h1 :: s :: _ =>
    (s == '+' || s == '-') && h1.isDigit && h2.isDigit && m1.isDigit && m2.isDigit
  | _ => false

/-- `_parse_iso8601` (timestamp_parser.py lines 87-132): normalize a bare date
to midnight-UTC form, tag an offset-free date-time as UTC by appending `Z`,
then try the four `strptime` formats in order; `none` is the final raised
`ValueError`. -/
def parse_iso8601 (cs : List Char) : Option ℤ :=
  let s1 :=
    if isBareDate cs then cs ++ ['T', '0', '0', ':', '0', '0', ':', '0', '0', 'Z']
    else cs
  let s2 :=
    if hasChar s1 'T' && !(endsZ s1 || endsPM0000 s1) && !endsOffsetShape s1 then
      s1 ++ ['Z']
    else s1
  match strptimeFracZ s2 with
  | some n => some n
  | none =>
    match strptimeFracOff s2 with
    | some n => some n
    | none =>
      match strptimeZ s2 with
      | some n => some n
      | none => strptimeOff s2

/-! ### `timestamp_parser.parse_timestamp` -/

/-- The numeric-epoch attempt of `parse_timestamp` (lines 34-43): integer parse
when the text has no `'.'`, else float parse; `none` is the caught
`ValueError`. -/
def pyNumParse (cs : List Char) : Option PyNum :=
  if hasChar cs '.' then (floatOfChars cs).map PyNum.floatv
  else (intOfChars cs).map PyNum.intv

/-- `parse_timestamp` (timestamp_parser.py lines 12-51).  `Except.error ()` is
a raised `TimestampParseError`. -/
def parse_timestamp (s : String) : Except Unit ℤ :=
  let t := stripChars s.data
  match pyNumParse t with
  | some num => .ok (parse_unix_timestamp num)
  | none =>
    match parse_iso8601 t with
    | some n => .ok n
    | none => .error ()

/-! ### JSON model and `otlp_parser.parse_otlp_line` -/

/-- The result of `json.loads`: JSON values.  Integer-shaped JSON numbers load
as Python `int` (`intn`), fractional/exponent ones as `float` (`floatn`,
idealized); booleans are separate from integers at the JSON level (Python's
`bool`-is-an-`int` quirk is handled where the code does `isinstance` checks).
Objects are the key/value lists in document order; `json.loads` keeps the last
binding of a duplicated key, which `jGet` mirrors. -/
inductive JVal where
  | null
  | boolv (b : Bool)
  | intn (n : ℤ)
  | floatn (q : PyFloat)
  | str (s : String)
  | arr (xs : List JVal)
  | obj (kvs : List (String × JVal))

/-- Python `dict.get(k)` on a loaded JSON object (last duplicate wins). -/
def jGet (kvs : List (String × JVal)) (k : String) : Option JVal :=
  ((kvs.filter (fun p => p.1 == k)).getLast?).map (fun p => p.2)

/-- Python `dict.get(k, default)`. -/
def jGetD (kvs : List (String × JVal)) (k : String) (dflt : JVal) : JVal :=
  (jGet kvs k).getD dflt

/-- `LogRecord` (otlp_parser.py lines 8-15). -/
structure LogRecord where
  time_unix_nano : Option ℤ
  line_number : ℕ
  record_index : ℕ
  raw_data : JVal

/-- What `parse_otlp_line` can raise: `otlp msg` is `OTLPParseError(msg)`;
`attr` is the uncaught `AttributeError` that `data.get(...)` raises when the
top-level JSON value is not an object. -/
inductive ExtractErr where
  | otlp (msg : String)
  | attr

/-- `_extract_time_unix_nano` (otlp_parser.py lines 94-118).  Note that
`isinstance(True, int)` holds in Python, so a JSON boolean passes the
`isinstance(time_value, int)` check and is returned as the integer 1 or 0. -/
def extract_time_unix_nano (kvs : List (String × JVal)) : Option ℤ :=
  match jGet kvs "timeUnixNano" with
  | none => none
  | some .null => none
  | some (.str s) => pyIntOfString s
  | some (.intn n) => some n
  | some (.boolv b) => some (if b then 1 else 0)
  | some _ => none

/-- One iteration of the innermost loop of `parse_otlp_line` (lines 74-89):
append a record and bump the dense counter for each object element of
`logRecords`, skip non-objects. -/
def recordStep (ln : ℕ) (st : List LogRecord × ℕ) (lr : JVal) : List LogRecord × ℕ :=
  match lr with
  | .obj lkvs => (st.1 ++ [⟨extract_time_unix_nano lkvs, ln, st.2, .obj lkvs⟩], st.2 + 1)
  | _ => st

/-- One iteration of the `scope_logs` loop (lines 66-72): non-object entries
and non-list `logRecords` are skipped silently. -/
def scopeStep (ln : ℕ) (st : List LogRecord × ℕ) (sl : JVal) : List LogRecord × ℕ :=
  match sl with
  | .obj skvs =>
    match jGetD skvs "logRecords" (.arr []) with
    | .arr lrs => lrs.foldl (recordStep ln) st
    | _ => st
  | _ => st

/-- One iteration of the `resource_logs` loop (lines 58-64): non-object
entries and non-list `scopeLogs` are skipped silently. -/
def resourceStep (ln : ℕ) (st : List LogRecord × ℕ) (rl : JVal) : List LogRecord × ℕ :=
  match rl with
  | .obj rkvs =>
    match jGetD rkvs "scopeLogs" (.arr []) with
    | .arr sls => sls.foldl (scopeStep ln) st
    | _ => st
  | _ => st

/-- An input line, abstracted as what the source observes of it: whether
`line.strip()` is empty, and the outcome of `json.loads(line)` (`none` is a
`JSONDecodeError`; it is irrelevant for blank lines, which are never parsed). -/
structure JLine where
  blank : Bool
  json : Option JVal

/-- `parse_otlp_line` (otlp_parser.py lines 22-91). -/
def parse_otlp_line (line : JLine) (line_number : ℕ) :
    Except ExtractErr (List LogRecord) :=
  if line.blank then .ok []
  else
    match line.json with
    | none => .error (.otlp "Invalid JSON")
    | some data =>
      match data with
      | .obj kvs =>
        match jGetD kvs "resourceLogs" (.arr []) with
        | .arr rls => .ok (rls.foldl (resourceStep line_number) ([], 0)).1
        | _ => .error (.otlp "resourceLogs must be a list")
      | _ => .error .attr

/-! ### Document-order view of extraction (specification side)

The nested imperative loops of `parse_otlp_line`, restated as a direct
comprehension: the per-record JSON objects reachable through
`resourceLogs[*].scopeLogs[*].logRecords[*]`, in document order. -/

/-- The object elements of a `logRecords` array, in order. -/
def docLogRecords : List JVal → List (List (String × JVal))
  | [] => []
  | lr :: rest =>
    match lr with
    | .obj lkvs => lkvs :: docLogRecords rest
    | _ => docLogRecords rest

/-- Record objects of one `scopeLogs` entry, in document order. -/
def docScopeRecords (sl : JVal) : List (List (String × JVal)) :=
  match sl with
  | .obj skvs =>
    match jGetD skvs "logRecords" (.arr []) with
    | .arr lrs => docLogRecords lrs
    | _ => []
  | _ => []

/-- Record objects of one `resourceLogs` entry, in document order. -/
def docResourceRecords (rl : JVal) : List (List (String × JVal)) :=
  match rl with
  | .obj rkvs =>
    match jGetD rkvs "scopeLogs" (.arr []) with
    | .arr sls => sls.flatMap docScopeRecords
    | _ => []
  | _ => []

/-- All record objects of a line's `resourceLogs` array, in document order. -/
def docOrderRecords (rls : List JVal) : List (List (String × JVal)) :=
  rls.flatMap docResourceRecords

/-- The `resourceLogs` array a successfully parsed line walks ( `[]` in every
case in which `parse_otlp_line` does not reach the walk). -/
def topResourceLogs (line : JLine) : List JVal :=
  if line.blank then []
  else
    match line.json with
    | some (.obj kvs) =>
      match jGetD kvs "resourceLogs" (.arr []) with
      | .arr rls => rls
      | _ => []
    | _ => []

/-- The records produced from a document-order list of record objects,
numbered densely from `i`. -/
def mkRecs (ln : ℕ) (i : ℕ) : List (List (String × JVal)) → List LogRecord
  | [] => []
  | d :: ds => ⟨extract_time_unix_nano d, ln, i, .obj d⟩ :: mkRecs ln (i + 1) ds

/-! ### `check_timestamp.py` -/

/-- `CheckResult` (check_timestamp.py lines 14-20); `status` is one of the
Python literals `"in_range"`, `"too_early"`, `"too_late"`, `"error"`. -/
structure CheckResult where
  record : LogRecord
  status : String
  error_message : String

/-- `check_timestamp_range` (check_timestamp.py lines 35-58). -/
def check_timestamp_range (record : LogRecord) (start_ns end_ns : ℤ) : CheckResult :=
  match record.time_unix_nano with
  | none => ⟨record, "error", "Missing or invalid timeUnixNano field"⟩
  | some t =>
    if t < start_ns then ⟨record, "too_early", ""⟩
    else if end_ns < t then ⟨record, "too_late", ""⟩
    else ⟨record, "in_range", ""⟩

/-- `Summary` (check_timestamp.py lines 23-32). -/
structure Summary where
  total_lines : ℕ
  total_records : ℕ
  in_range : ℕ
  too_early : ℕ
  too_late : ℕ
  errors : ℕ

/-- The per-record body of the loop in `process_stream` (lines 189-204):
count the record and update the matching counter / `has_issues`.  (The
`click.echo` output of the `verbose`/`quiet` presentation flags has no effect
on the counters or the exit status and is not modelled.) -/
def recordTally (start_ns end_ns : ℤ) (st : Summary × Bool) (r : LogRecord) :
    Summary × Bool :=
  let s := { st.1 with total_records := st.1.total_records + 1 }
  let res := check_timestamp_range r start_ns end_ns
  if res.status = "in_range" then ({ s with in_range := s.in_range + 1 }, st.2)
  else if res.status = "too_early" then ({ s with too_early := s.too_early + 1 }, true)
  else if res.status = "too_late" then ({ s with too_late := s.too_late + 1 }, true)
  else if res.status = "error" then ({ s with errors := s.errors + 1 }, true)
  else (s, st.2)

/-- The per-line loop of `process_stream` (lines 175-211), with the line
number threaded as in `enumerate(input_stream, start=1)`.  A `MalformedStructure`
line is counted as an error and processing continues; an uncaught
`AttributeError` aborts the whole run (`none`). -/
def processLines (start_ns end_ns : ℤ) :
    List JLine → ℕ → Summary → Bool → Option (Summary × Bool)
  | [], _, s, h => some (s, h)
  | l :: rest, ln, s, h =>
    let s1 := { s with total_lines := s.total_lines + 1 }
    match parse_otlp_line l ln with
    | .error .attr => none
    | .error (.otlp _) =>
      processLines start_ns end_ns rest (ln + 1) { s1 with errors := s1.errors + 1 } true
    | .ok recs =>
      let st := recs.foldl (recordTally start_ns end_ns) (s1, h)
      processLines start_ns end_ns rest (ln + 1) st.1 st.2

/-- `process_stream` (check_timestamp.py lines 151-212). -/
def process_stream (lines : List JLine) (start_ns end_ns : ℤ) :
    Option (Summary × Bool) :=
  processLines start_ns end_ns lines 1 ⟨0, 0, 0, 0, 0, 0⟩ false

/-- `main` (check_timestamp.py lines 238-277), reduced to its exit code:
`some code` is `sys.exit(code)`, `none` an uncaught exception escaping
`process_stream`. -/
def mainExit (start_arg end_arg : String) (lines : List JLine) : Option ℕ :=
  match parse_timestamp start_arg, parse_timestamp end_arg with
  | .ok start_ns, .ok end_ns =>
    if end_ns ≤ start_ns then some 2
    else
      match process_stream lines start_ns end_ns with
      | none => none
      | some (_, has_issues) => some (if has_issues then 1 else 0)
  | _, _ => some 2

/-! ### Specification-side counters for streams -/

/-- Number of records a line contributes (0 for a failing line). -/
def lineRecCount (l : JLine) (ln : ℕ) : ℕ :=
  match parse_otlp_line l ln with
  | .ok recs => recs.length
  | .error _ => 0

/-- Successfully-extracted records of a line whose timestamp is absent. -/
def lineAbsCount (l : JLine) (ln : ℕ) : ℕ :=
  match parse_otlp_line l ln with
  | .ok recs => recs.countP (fun r => r.time_unix_nano.isNone)
  | .error _ => 0

/-- 1 when the line raises `MalformedStructure`, else 0. -/
def lineMalCount (l : JLine) (ln : ℕ) : ℕ :=
  match parse_otlp_line l ln with
  | .error (.otlp _) => 1
  | _ => 0

/-- Records of a line classified with the given status. -/
def lineStatusCount (l : JLine) (ln : ℕ) (a b : ℤ) (st : String) : ℕ :=
  match parse_otlp_line l ln with
  | .ok recs => recs.countP (fun r => (check_timestamp_range r a b).status == st)
  | .error _ => 0

/-- Sum of a per-line counter over a stream, with line numbers from `ln`. -/
def streamSum (f : JLine → ℕ → ℕ) : List JLine → ℕ → ℕ
  | [], _ => 0
  | l :: rest, ln => f l ln + streamSum f rest (ln + 1)

/-! ### Specification-side auxiliary definitions used by the claims -/

/-- The per-record `timeUnixNano` resolution rule as amended: absent key and
JSON null, floats, arrays and objects give an absent timestamp; a native
integer is used directly; a boolean is used as its integer value (Python's
`bool` is an `int` subclass); a string is converted as decimal text, absent on
failure.  No case raises. -/
def claimTimeResolution : Option JVal → Option ℤ
  | none => none
  | some (.intn n) => some n
  | some (.boolv b) => some (if b then 1 else 0)
  | some (.str s) => pyIntOfString s
  | some _ => none

/-- Discriminator: did extraction succeed? -/
def isOkResult (r : Except ExtractErr (List LogRecord)) : Bool :=
  match r with
  | .ok _ => true
  | .error _ => false

/-- Discriminator: did extraction raise `MalformedStructure`
(`OTLPParseError`)? -/
def isMalformedResult (r : Except ExtractErr (List LogRecord)) : Bool :=
  match r with
  | .error (.otlp _) => true
  | _ => false

/-- The condition under which the claim says extraction must fail: a
non-blank line that is invalid JSON or whose `resourceLogs` field is present
but not an array. -/
def malformedCondition (line : JLine) : Prop :=
  line.blank = false ∧
    (line.json = none ∨
      ∃ kvs v, line.json = some (.obj kvs) ∧ jGet kvs "resourceLogs" = some v ∧
        ∀ xs, v ≠ JVal.arr xs)

/-! Rendered canonical date strings, used to state the ISO 8601 claims. -/

/-- The ASCII digit character for a value `0..9`. -/
def digitChar (x : ℕ) : Char :=
  if x = 0 then '0' else if x = 1 then '1' else if x = 2 then '2'
  else if x = 3 then '3' else if x = 4 then '4' else if x = 5 then '5'
  else if x = 6 then '6' else if x = 7 then '7' else if x = 8 then '8' else '9'

/-- Two-digit zero-padded rendering. -/
def pad2 (n : ℕ) : List Char := [digitChar (n / 10), digitChar (n % 10)]

/-- Four-digit zero-padded rendering. -/
def pad4 (y : ℕ) : List Char :=
  [digitChar (y / 1000), digitChar (y / 100 % 10), digitChar (y / 10 % 10),
    digitChar (y % 10)]

/-- `YYYY-MM-DD` followed by a continuation. -/
def dateCharsR (y m d : ℕ) (rest : List Char) : List Char :=
  pad4 y ++ '-' :: (pad2 m ++ '-' :: (pad2 d ++ rest))

/-- `YYYY-MM-DDTHH:MI:SS` followed by a continuation. -/
def dtCharsR (y m d hh mi ss : ℕ) (rest : List Char) : List Char :=
  dateCharsR y m d ('T' :: (pad2 hh ++ ':' :: (pad2 mi ++ ':' :: (pad2 ss ++ rest))))

/-- The canonical bare-date string `YYYY-MM-DD`. -/
def mkDateStr (y m d : ℕ) : String := ⟨dateCharsR y m d []⟩

/-- The canonical timezone-less date-time string `YYYY-MM-DDTHH:MI:SS`. -/
def mkDateTimeStr (y m d hh mi ss : ℕ) : String := ⟨dtCharsR y m d hh mi ss []⟩

/-! ### Claim C2: classification outcomes -/

/-- C2: for every extracted record and time range, the classification outcome
of `check_timestamp_range` is `error` iff the timestamp is absent, `too_early`
iff present and strictly below `start_ns`, `too_late` iff present and strictly
above `end_ns`, and `in_range` iff present and inside the inclusive range (so
a timestamp equal to either bound is `in_range`).  The time range is a valid
`TimeRange` in the spec's sense, i.e. `start_ns < end_ns` — the orchestrator
enforces this before any record is classified. -/
theorem claim_C2 (r : LogRecord) (a b : ℤ) (hab : a < b) :
    ((check_timestamp_range r a b).status = "error" ↔ r.time_unix_nano = none) ∧
    ((check_timestamp_range r a b).status = "too_early" ↔
      ∃ t, r.time_unix_nano = some t ∧ t < a) ∧
    ((check_timestamp_range r a b).status = "too_late" ↔
      ∃ t, r.time_unix_nano = some t ∧ b < t) ∧
    ((check_timestamp_range r a b).status = "in_range" ↔
      ∃ t, r.time_unix_nano = some t ∧ a ≤ t ∧ t ≤ b) := by
  rcases hr : r.time_unix_nano with _ | t
  · simp [check_timestamp_range, hr]
  · by_cases h1 : t < a
    · simp only [check_timestamp_range, hr]
      rw [if_pos h1]
      refine ⟨by simp, by simp [h1], by simp; omega, by simp; omega⟩
    · by_cases h2 : b < t
      · simp only [check_timestamp_range, hr]
        rw [if_neg h1, if_pos h2]
        refine ⟨by simp, by simp; omega, by simp [h2], by simp; omega⟩
      · simp only [check_timestamp_range, hr]
        rw [if_neg h1, if_neg h2]
        refine ⟨by simp, by simp; omega, by simp; omega, by simp; omega⟩

/-- C2 witness: a concrete record with timestamp equal to the range start
classifies as `in_range`. -/
theorem claim_C2_witness :
    ((check_timestamp_range ⟨some 5, 1, 0, JVal.null⟩ 5 9).status = "error" ↔
      (some (5 : ℤ) = none)) ∧
    ((check_timestamp_range ⟨some 5, 1, 0, JVal.null⟩ 5 9).status = "too_early" ↔
      ∃ t, some (5 : ℤ) = some t ∧ t < 5) ∧
    ((check_timestamp_range ⟨some 5, 1, 0, JVal.null⟩ 5 9).status = "too_late" ↔
      ∃ t, some (5 : ℤ) = some t ∧ 9 < t) ∧
    ((check_timestamp_range ⟨some 5, 1, 0, JVal.null⟩ 5 9).status = "in_range" ↔
      ∃ t, some (5 : ℤ) = some t ∧ 5 ≤ t ∧ t ≤ 9) :=
  claim_C2 ⟨some 5, 1, 0, JVal.null⟩ 5 9 (by decide)

/-! ### Claim C4: per-record `timeUnixNano` resolution -/

/-- C4 (amended): `_extract_time_unix_nano` implements exactly
`claimTimeResolution` of the looked-up field — total, hence never raising;
the amendment is that a JSON boolean is used as the integer 1 or 0 rather
than yielding an absent timestamp. -/
theorem claim_C4 (kvs : List (String × JVal)) :
    extract_time_unix_nano kvs = claimTimeResolution (jGet kvs "timeUnixNano") := by
  unfold extract_time_unix_nano claimTimeResolution
  rcases jGet kvs "timeUnixNano" with _ | v
  · rfl
  · cases v <;> rfl

/-- C4 counterexample: on `{"timeUnixNano": true}` the code resolves the
timestamp to `1` (Python booleans pass the `isinstance(..., int)` check),
while the claim says any boolean value yields an absent timestamp. -/
theorem claim_C4_cex :
    extract_time_unix_nano [("timeUnixNano", JVal.boolv true)] = some 1 ∧
    (some (1 : ℤ)).isNone = false := ⟨rfl, rfl⟩

/-! ### Claim C5: valid JSON object without `resourceLogs` -/

/-- C5: for every JSON object in which the key `resourceLogs` is absent,
extraction returns the empty record sequence and raises no error
(`dict.get` supplies the empty-list default). -/
theorem claim_C5 (kvs : List (String × JVal)) (ln : ℕ)
    (h : jGet kvs "resourceLogs" = none) :
    parse_otlp_line ⟨false, some (.obj kvs)⟩ ln = .ok [] := by
  simp [parse_otlp_line, jGetD, h]

/-- C5 witness: a concrete object without `resourceLogs`. -/
theorem claim_C5_witness :
    parse_otlp_line ⟨false, some (.obj [("other", JVal.null)])⟩ 1 = .ok [] :=
  claim_C5 [("other", JVal.null)] 1 rfl

/-! ### Claim C3: when extraction fails -/

/-- C3 (amended): for lines whose top-level JSON value (when the line is
non-blank and valid JSON) is an object, extraction fails with
`MalformedStructure` exactly under `malformedCondition`, and succeeds (with a
possibly empty record sequence) otherwise; moreover every inner irregularity —
a non-object `resourceLogs`/`scopeLogs`/`logRecords` element or a
present-but-non-array `scopeLogs`/`logRecords` — is skipped silently, its
branch contributing zero records.  The amendment is the object-top-level
proviso: a non-blank line of valid JSON whose top-level value is not an
object makes `data.get("resourceLogs", [])` raise an uncaught
`AttributeError`, which is neither a success nor a `MalformedStructure`
failure (see the counterexample). -/
theorem claim_C3 (line : JLine) (ln : ℕ)
    (hobj : line.blank = true ∨ line.json = none ∨
      ∃ kvs, line.json = some (JVal.obj kvs)) :
    ((∃ msg, parse_otlp_line line ln = .error (.otlp msg)) ↔ malformedCondition line) ∧
    ((∃ recs, parse_otlp_line line ln = .ok recs) ↔ ¬ malformedCondition line) ∧
    (∀ st rl, (∀ kvs, rl ≠ JVal.obj kvs) → resourceStep ln st rl = st) ∧
    (∀ st rkvs, (∀ xs, jGetD rkvs "scopeLogs" (JVal.arr []) ≠ JVal.arr xs) →
      resourceStep ln st (JVal.obj rkvs) = st) ∧
    (∀ st sl, (∀ kvs, sl ≠ JVal.obj kvs) → scopeStep ln st sl = st) ∧
    (∀ st skvs, (∀ xs, jGetD skvs "logRecords" (JVal.arr []) ≠ JVal.arr xs) →
      scopeStep ln st (JVal.obj skvs) = st) ∧
    (∀ st lr, (∀ kvs, lr ≠ JVal.obj kvs) → recordStep ln st lr = st) := by
  refine ⟨?_, ?_, ?_, ?_, ?_, ?_, ?_⟩
  · obtain ⟨bl, js⟩ := line
    rcases hobj with hb | hj | ⟨kvs, hk⟩
    · cases hb
      simp [parse_otlp_line, malformedCondition]
    · cases bl
      · cases hj
        exact ⟨fun _ => ⟨rfl, Or.inl rfl⟩, fun _ => ⟨"Invalid JSON", rfl⟩⟩
      · cases hj
        simp [parse_otlp_line, malformedCondition]
    · cases bl
      · cases hk
        rcases hv : jGet kvs "resourceLogs" with _ | v
        · simp [parse_otlp_line, malformedCondition, jGetD, hv]
        · cases v <;>
            simp_all [parse_otlp_line, malformedCondition, jGetD, hv]
      · cases hk
        simp [parse_otlp_line, malformedCondition]
  · obtain ⟨bl, js⟩ := line
    rcases hobj with hb | hj | ⟨kvs, hk⟩
    · cases hb
      simp [parse_otlp_line, malformedCondition]
    · cases bl
      · cases hj
        simp [parse_otlp_line, malformedCondition]
      · cases hj
        simp [parse_otlp_line, malformedCondition]
    · cases bl
      · cases hk
        rcases hv : jGet kvs "resourceLogs" with _ | v
        · simp [parse_otlp_line, malformedCondition, jGetD, hv]
        · cases v <;>
            simp_all [parse_otlp_line, malformedCondition, jGetD, hv]
      · cases hk
        simp [parse_otlp_line, malformedCondition]
  · intro st rl h
    cases rl <;> first | rfl | exact absurd rfl (h _)
  · intro st rkvs h
    rcases hv : jGetD rkvs "scopeLogs" (JVal.arr []) with _ | _ | _ | _ | _ | xs | _ <;>
      first
        | exact absurd hv (h _)
        | simp [resourceStep, hv]
  · intro st sl h
    cases sl <;> first | rfl | exact absurd rfl (h _)
  · intro st skvs h
    rcases hv : jGetD skvs "logRecords" (JVal.arr []) with _ | _ | _ | _ | _ | xs | _ <;>
      first
        | exact absurd hv (h _)
        | simp [scopeStep, hv]
  · intro st lr h
    cases lr <;> first | rfl | exact absurd rfl (h _)

/-- C3 witness: a non-blank object line whose `resourceLogs` is a string
fails with `MalformedStructure`. -/
theorem claim_C3_witness :
    ∃ msg, parse_otlp_line ⟨false, some (.obj [("resourceLogs", JVal.str "nope")])⟩ 1
      = .error (.otlp msg) :=
  (claim_C3 ⟨false, some (.obj [("resourceLogs", JVal.str "nope")])⟩ 1
      (Or.inr (Or.inr ⟨_, rfl⟩))).1.mpr
    ⟨rfl, Or.inr ⟨_, JVal.str "nope", rfl, rfl, fun _ h => by cases h⟩⟩

/-- C3 counterexample: the line `42` is valid JSON, is not blank, and its
`resourceLogs` field is not "present but not an array" — so the claim says
extraction returns a record sequence without error — yet the code neither
succeeds nor raises `MalformedStructure`: it dies with an uncaught
`AttributeError` (`int` has no `.get`). -/
theorem claim_C3_cex :
    parse_otlp_line ⟨false, some (.intn 42)⟩ 1 = .error .attr ∧
    isOkResult (parse_otlp_line ⟨false, some (.intn 42)⟩ 1) = false ∧
    isMalformedResult (parse_otlp_line ⟨false, some (.intn 42)⟩ 1) = false :=
  ⟨rfl, rfl, rfl⟩

/-! ### Claim C7: dense document-order record indices -/

theorem mkRecs_append (ln : ℕ) :
    ∀ (xs ys : List (List (String × JVal))) (i : ℕ),
      mkRecs ln i (xs ++ ys) = mkRecs ln i xs ++ mkRecs ln (i + xs.length) ys := by
  intro xs
  induction xs with
  | nil => simp [mkRecs]
  | cons d ds ih =>
    intro ys i
    have h1 : (d :: ds) ++ ys = d :: (ds ++ ys) := rfl
    rw [h1, mkRecs, mkRecs, ih ys (i + 1), List.length_cons, List.cons_append]
    have harith : i + 1 + ds.length = i + (ds.length + 1) := by omega
    rw [harith]

theorem mkRecs_length (ln : ℕ) :
    ∀ (ds : List (List (String × JVal))) (i : ℕ), (mkRecs ln i ds).length = ds.length := by
  intro ds
  induction ds with
  | nil => simp [mkRecs]
  | cons d ds ih => intro i; simp [mkRecs, ih]

/-- The innermost `logRecords` loop produces exactly the document-order
records of its object elements, numbered densely from the incoming counter. -/
theorem foldl_recordStep (ln : ℕ) (lrs : List JVal) :
    ∀ (acc : List LogRecord) (i : ℕ),
      lrs.foldl (recordStep ln) (acc, i) =
        (acc ++ mkRecs ln i (docLogRecords lrs), i + (docLogRecords lrs).length) := by
  induction lrs with
  | nil => simp [mkRecs, docLogRecords]
  | cons hd tl ih =>
    intro acc i
    rw [List.foldl_cons]
    cases hd with
    | obj lkvs =>
      rw [show recordStep ln (acc, i) (JVal.obj lkvs)
          = (acc ++ [⟨extract_time_unix_nano lkvs, ln, i, JVal.obj lkvs⟩], i + 1) from rfl,
        ih]
      simp only [docLogRecords, mkRecs, Prod.mk.injEq, List.length_cons]
      constructor
      · simp
      · omega
    | null => simpa [docLogRecords, recordStep] using ih acc i
    | boolv b => simpa [docLogRecords, recordStep] using ih acc i
    | intn n => simpa [docLogRecords, recordStep] using ih acc i
    | floatn q => simpa [docLogRecords, recordStep] using ih acc i
    | str s => simpa [docLogRecords, recordStep] using ih acc i
    | arr xs => simpa [docLogRecords, recordStep] using ih acc i

/-- The `scopeLogs` loop produces the document-order records of its scope
entries, numbered densely from the incoming counter. -/
theorem foldl_scopeStep (ln : ℕ) (sls : List JVal) :
    ∀ (acc : List LogRecord) (i : ℕ),
      sls.foldl (scopeStep ln) (acc, i) =
        (acc ++ mkRecs ln i (sls.flatMap docScopeRecords),
          i + (sls.flatMap docScopeRecords).length) := by
  induction sls with
  | nil => simp [mkRecs]
  | cons hd tl ih =>
    intro acc i
    rw [List.foldl_cons, List.flatMap_cons, mkRecs_append]
    have hstep : scopeStep ln (acc, i) hd =
        (acc ++ mkRecs ln i (docScopeRecords hd), i + (docScopeRecords hd).length) := by
      cases hd with
      | obj skvs =>
        rcases hv : jGetD skvs "logRecords" (JVal.arr []) with _ | _ | _ | _ | _ | xs | _ <;>
          simp [scopeStep, hv, docScopeRecords, foldl_recordStep, mkRecs]
      | null => simp [scopeStep, docScopeRecords, mkRecs]
      | boolv b => simp [scopeStep, docScopeRecords, mkRecs]
      | intn n => simp [scopeStep, docScopeRecords, mkRecs]
      | floatn q => simp [scopeStep, docScopeRecords, mkRecs]
      | str s => simp [scopeStep, docScopeRecords, mkRecs]
      | arr xs => simp [scopeStep, docScopeRecords, mkRecs]
    rw [hstep, ih]
    simp only [Prod.mk.injEq, List.append_assoc, List.length_append]
    constructor <;> first | trivial | omega

/-- The `resourceLogs` loop produces all document-order records, numbered
densely from the incoming counter. -/
theorem foldl_resourceStep (ln : ℕ) (rls : List JVal) :
    ∀ (acc : List LogRecord) (i : ℕ),
      rls.foldl (resourceStep ln) (acc, i) =
        (acc ++ mkRecs ln i (docOrderRecords rls), i + (docOrderRecords rls).length) := by
  induction rls with
  | nil => simp [mkRecs, docOrderRecords]
  | cons hd tl ih =>
    intro acc i
    have hdoc : docOrderRecords (hd :: tl)
        = docResourceRecords hd ++ tl.flatMap docResourceRecords := by
      simp [docOrderRecords]
    rw [List.foldl_cons, hdoc, mkRecs_append]
    have hstep : resourceStep ln (acc, i) hd =
        (acc ++ mkRecs ln i (docResourceRecords hd), i + (docResourceRecords hd).length) := by
      cases hd with
      | obj rkvs =>
        rcases hv : jGetD rkvs "scopeLogs" (JVal.arr []) with _ | _ | _ | _ | _ | xs | _ <;>
          simp [resourceStep, hv, docResourceRecords, foldl_scopeStep, mkRecs]
      | null => simp [resourceStep, docResourceRecords, mkRecs]
      | boolv b => simp [resourceStep, docResourceRecords, mkRecs]
      | intn n => simp [resourceStep, docResourceRecords, mkRecs]
      | floatn q => simp [resourceStep, docResourceRecords, mkRecs]
      | str s => simp [resourceStep, docResourceRecords, mkRecs]
      | arr xs => simp [resourceStep, docResourceRecords, mkRecs]
    rw [hstep, ih]
    have hdoc2 : docOrderRecords tl = tl.flatMap docResourceRecords := rfl
    rw [hdoc2]
    simp only [Prod.mk.injEq, List.append_assoc, List.length_append]
    constructor <;> first | trivial | omega

theorem mkRecs_map_index (ln : ℕ) :
    ∀ (ds : List (List (String × JVal))) (i : ℕ),
      (mkRecs ln i ds).map (fun r => r.record_index) = List.range' i ds.length := by
  intro ds
  induction ds with
  | nil => simp [mkRecs]
  | cons d ds ih => intro i; simp [mkRecs, List.range', ih]

theorem mkRecs_map_raw (ln : ℕ) :
    ∀ (ds : List (List (String × JVal))) (i : ℕ),
      (mkRecs ln i ds).map (fun r => r.raw_data) = ds.map JVal.obj := by
  intro ds
  induction ds with
  | nil => simp [mkRecs]
  | cons d ds ih => intro i; simp [mkRecs, ih]

/-- On success, `parse_otlp_line` returns exactly the document-order records
of the line, densely indexed from 0. -/
theorem parse_otlp_line_ok (line : JLine) (ln : ℕ) (recs : List LogRecord)
    (h : parse_otlp_line line ln = .ok recs) :
    recs = mkRecs ln 0 (docOrderRecords (topResourceLogs line)) := by
  obtain ⟨bl, js⟩ := line
  cases bl
  · rcases js with _ | v
    · exact absurd h (by simp [parse_otlp_line])
    · cases v with
      | obj kvs =>
        cases hv : jGetD kvs "resourceLogs" (JVal.arr []) with
        | arr rls =>
          have hp : parse_otlp_line ⟨false, some (JVal.obj kvs)⟩ ln
              = .ok (rls.foldl (resourceStep ln) ([], 0)).1 := by
            rw [parse_otlp_line]
            simp [hv]
          rw [hp] at h
          simp only [Except.ok.injEq] at h
          rw [← h, foldl_resourceStep]
          simp [topResourceLogs, hv]
        | null =>
          rw [parse_otlp_line] at h; simp [hv] at h
        | boolv b =>
          rw [parse_otlp_line] at h; simp [hv] at h
        | intn n =>
          rw [parse_otlp_line] at h; simp [hv] at h
        | floatn q =>
          rw [parse_otlp_line] at h; simp [hv] at h
        | str s =>
          rw [parse_otlp_line] at h; simp [hv] at h
        | obj kvs2 =>
          rw [parse_otlp_line] at h; simp [hv] at h
      | null => exact absurd h (by simp [parse_otlp_line])
      | boolv b => exact absurd h (by simp [parse_otlp_line])
      | intn n => exact absurd h (by simp [parse_otlp_line])
      | floatn q => exact absurd h (by simp [parse_otlp_line])
      | str s => exact absurd h (by simp [parse_otlp_line])
      | arr xs => exact absurd h (by simp [parse_otlp_line])
  · rw [parse_otlp_line] at h
    simp at h
    subst h
    simp [topResourceLogs, docOrderRecords, mkRecs]

/-- C7: on every successfully extracted line the `record_index` values form
the contiguous sequence `0, 1, 2, …` and the records are exactly the line's
log-record objects in document order (`resourceLogs`, then `scopeLogs`, then
`logRecords`, in array order) — one index increment per record actually
appended, no reordering. -/
theorem claim_C7 (line : JLine) (ln : ℕ) (recs : List LogRecord)
    (h : parse_otlp_line line ln = .ok recs) :
    recs.map (fun r => r.record_index) = List.range recs.length ∧
    recs.map (fun r => r.raw_data)
      = (docOrderRecords (topResourceLogs line)).map JVal.obj := by
  have hr := parse_otlp_line_ok line ln recs h
  subst hr
  refine ⟨?_, mkRecs_map_raw ln _ 0⟩
  rw [mkRecs_map_index, mkRecs_length, List.range_eq_range']

/-- C7 witness: a concrete line with one non-object entry between two record
objects; the two extracted records carry indices 0 and 1 in document order. -/
theorem claim_C7_witness :
    ([(⟨some 7, 3, 0, JVal.obj [("timeUnixNano", JVal.str "7")]⟩ : LogRecord),
        ⟨none, 3, 1, JVal.obj []⟩].map (fun r => r.record_index)
      = List.range 2) ∧
    ([(⟨some 7, 3, 0, JVal.obj [("timeUnixNano", JVal.str "7")]⟩ : LogRecord),
        ⟨none, 3, 1, JVal.obj []⟩].map (fun r => r.raw_data)
      = (docOrderRecords (topResourceLogs ⟨false, some (.obj [("resourceLogs",
          .arr [.obj [("scopeLogs", .arr [.obj [("logRecords",
            .arr [.obj [("timeUnixNano", JVal.str "7")], .str "junk",
              .obj []])]])]])])⟩)).map JVal.obj) :=
  claim_C7 ⟨false, some (.obj [("resourceLogs",
      .arr [.obj [("scopeLogs", .arr [.obj [("logRecords",
        .arr [.obj [("timeUnixNano", JVal.str "7")], .str "junk",
          .obj []])]])]])])⟩ 3 _ rfl

/-! ### Claim C1: magnitude-based unit inference for numeric boundary text -/

/-- C1 counterexample: the bound text `"-20000000000000"` parses as the exact
integer `-2·10^13`, whose magnitude is `≥ 10^13`, so the claim's
sign-insensitive reading demands it be taken as nanoseconds and returned
unchanged; the code compares the signed value (`-2·10^13 < 10^10`), treats it
as seconds, and multiplies by `10^9`. -/
theorem claim_C1_cex :
    parse_timestamp "-20000000000000" = .ok (-20000000000000000000000) ∧
    (-20000000000000000000000 : ℤ) ≠ (-20000000000000 : ℤ) :=
  ⟨rfl, by decide⟩

/-- C1 (amended): the unit-inference thresholds compare the signed numeric
value, not its magnitude: `v < 10^10` means seconds, `10^10 ≤ v < 10^13`
milliseconds, `v ≥ 10^13` nanoseconds (so every negative value is treated as
seconds).  Text without a decimal point is parsed and multiplied as an exact
arbitrary-precision integer, never through floating point; text with a
decimal point is parsed as a float and the scaled product is rounded to the
nearest integer (idealized here as the exact decimal value).  The spec's own
round-trip examples are included. -/
theorem claim_C1 :
    (∀ (s : String) (n : ℤ), pyNumParse (stripChars s.data) = some (PyNum.intv n) →
      parse_timestamp s = .ok (if n < 10 ^ 10 then n * 10 ^ 9
        else if n < 10 ^ 13 then n * 10 ^ 6 else n)) ∧
    (∀ (s : String) (q : PyFloat), pyNumParse (stripChars s.data) = some (PyNum.floatv q) →
      parse_timestamp s = .ok (if pyFloatLtPow10 q 10 then pyRound (pyFloatMulPow10 9 q)
        else if pyFloatLtPow10 q 13 then pyRound (pyFloatMulPow10 6 q) else pyRound q)) ∧
    parse_timestamp "1577836800" = .ok 1577836800000000000 ∧
    parse_timestamp "1577836800123" = .ok 1577836800123000000 ∧
    parse_timestamp "1577836800123456789" = .ok 1577836800123456789 := by
  refine ⟨?_, ?_, rfl, rfl, rfl⟩
  · intro s n h
    simp [parse_timestamp, h, parse_unix_timestamp]
  · intro s q h
    simp [parse_timestamp, h, parse_unix_timestamp]

/-- C1 witness: the amended rule applied to a concrete integer text and a
concrete float text. -/
theorem claim_C1_witness :
    (parse_timestamp "1577836800123"
      = .ok (if (1577836800123 : ℤ) < 10 ^ 10 then 1577836800123 * 10 ^ 9
          else if (1577836800123 : ℤ) < 10 ^ 13 then 1577836800123 * 10 ^ 6
          else 1577836800123)) ∧
    (parse_timestamp "1.5"
      = .ok (if pyFloatLtPow10 ⟨15, -1⟩ 10 then pyRound (pyFloatMulPow10 9 ⟨15, -1⟩)
          else if pyFloatLtPow10 ⟨15, -1⟩ 13 then pyRound (pyFloatMulPow10 6 ⟨15, -1⟩)
          else pyRound ⟨15, -1⟩)) :=
  ⟨claim_C1.1 "1577836800123" 1577836800123 rfl, claim_C1.2.1 "1.5" ⟨15, -1⟩ rfl⟩

/-! ### Claim C8: when normalization fails -/

theorem stripChars_of_all_space (cs : List Char) (h : ∀ c ∈ cs, pyIsSpace c = true) :
    stripChars cs = [] := by
  unfold stripChars
  have h1 : cs.dropWhile pyIsSpace = [] := by
    rw [List.dropWhile_eq_nil_iff]
    intro x hx
    exact h x hx
  rw [h1]
  rfl

/-- C8: `parse_timestamp` raises `UnparseableTimestamp` exactly when both the
numeric-epoch interpretation and the ISO 8601 interpretation of the stripped
text fail; every empty or all-whitespace string fails, and so do `""` and
`"not-a-timestamp"`. -/
theorem claim_C8 :
    (∀ s : String, parse_timestamp s = .error () ↔
      pyNumParse (stripChars s.data) = none ∧ parse_iso8601 (stripChars s.data) = none) ∧
    (∀ s : String, (∀ c ∈ s.data, pyIsSpace c = true) → parse_timestamp s = .error ()) ∧
    parse_timestamp "" = .error () ∧
    parse_timestamp "not-a-timestamp" = .error () := by
  refine ⟨?_, ?_, rfl, rfl⟩
  · intro s
    rcases h1 : pyNumParse (stripChars s.data) with _ | num
    · rcases h2 : parse_iso8601 (stripChars s.data) with _ | n <;>
        simp [parse_timestamp, h1, h2]
    · simp [parse_timestamp, h1]
  · intro s hs
    have hstrip : stripChars s.data = [] := stripChars_of_all_space s.data hs
    have h1 : pyNumParse (stripChars s.data) = none := by rw [hstrip]; rfl
    have h2 : parse_iso8601 (stripChars s.data) = none := by rw [hstrip]; rfl
    simp [parse_timestamp, h1, h2]

/-- C8 witness: a concrete all-whitespace string fails. -/
theorem claim_C8_witness : parse_timestamp "  " = .error () :=
  claim_C8.2.1 "  " (by decide)

/-! ### Claims C9 and C10: stream processing, counters, exit codes -/

/-- The record loop of `process_stream`, in closed form: every record bumps
`total_records`, exactly one of the four outcome counters is bumped per
record (the `errors` counter exactly for absent timestamps), and `has_issues`
becomes true iff some record was too early, too late or errored. -/
theorem foldl_recordTally (a b : ℤ) (recs : List LogRecord) :
    ∀ (s : Summary) (h : Bool),
      recs.foldl (recordTally a b) (s, h) =
        (⟨s.total_lines,
          s.total_records + recs.length,
          s.in_range + recs.countP (fun r => (check_timestamp_range r a b).status == "in_range"),
          s.too_early + recs.countP (fun r => (check_timestamp_range r a b).status == "too_early"),
          s.too_late + recs.countP (fun r => (check_timestamp_range r a b).status == "too_late"),
          s.errors + recs.countP (fun r => r.time_unix_nano.isNone)⟩,
        h || decide (0 <
          recs.countP (fun r => (check_timestamp_range r a b).status == "too_early")
          + recs.countP (fun r => (check_timestamp_range r a b).status == "too_late")
          + recs.countP (fun r => r.time_unix_nano.isNone))) := by
  induction recs with
  | nil => intro s h; simp
  | cons r rest ih =>
    intro s h
    rw [List.foldl_cons]
    rcases hr : r.time_unix_nano with _ | t
    · have hcheck : check_timestamp_range r a b
          = ⟨r, "error", "Missing or invalid timeUnixNano field"⟩ := by
        simp [check_timestamp_range, hr]
      have hstep : recordTally a b (s, h) r =
          ({ s with
              total_records := s.total_records + 1
              errors := s.errors + 1 }, true) := by
        simp [recordTally, hcheck]
      rw [hstep, ih]
      rw [Prod.mk.injEq]
      constructor
      · rw [Summary.mk.injEq]
        refine ⟨rfl, by simp [List.countP_cons, hcheck, hr] <;> omega,
          by simp [List.countP_cons, hcheck, hr] <;> omega,
          by simp [List.countP_cons, hcheck, hr] <;> omega,
          by simp [List.countP_cons, hcheck, hr] <;> omega,
          by simp [List.countP_cons, hcheck, hr] <;> omega⟩
      · cases h
        · simp only [Bool.true_or, Bool.false_or]
          symm
          rw [decide_eq_true_eq]
          simp [List.countP_cons, hcheck, hr]
        · simp
    · by_cases h1 : t < a
      · have hcheck : check_timestamp_range r a b = ⟨r, "too_early", ""⟩ := by
          simp only [check_timestamp_range, hr]
          rw [if_pos h1]
        have hstep : recordTally a b (s, h) r =
            ({ s with
                total_records := s.total_records + 1
                too_early := s.too_early + 1 }, true) := by
          simp [recordTally, hcheck]
        rw [hstep, ih]
        rw [Prod.mk.injEq]
        constructor
        · rw [Summary.mk.injEq]
          refine ⟨rfl, by simp [List.countP_cons, hcheck, hr] <;> omega,
            by simp [List.countP_cons, hcheck, hr] <;> omega,
            by simp [List.countP_cons, hcheck, hr] <;> omega,
            by simp [List.countP_cons, hcheck, hr] <;> omega,
            by simp [List.countP_cons, hcheck, hr] <;> omega⟩
        · cases h
          · simp only [Bool.true_or, Bool.false_or]
            symm
            rw [decide_eq_true_eq]
            simp [List.countP_cons, hcheck, hr]
          · simp
      · by_cases h2 : b < t
        · have hcheck : check_timestamp_range r a b = ⟨r, "too_late", ""⟩ := by
            simp only [check_timestamp_range, hr]
            rw [if_neg h1, if_pos h2]
          have hstep : recordTally a b (s, h) r =
              ({ s with
                  total_records := s.total_records + 1
                  too_late := s.too_late + 1 }, true) := by
            simp [recordTally, hcheck]
          rw [hstep, ih]
          rw [Prod.mk.injEq]
          constructor
          · rw [Summary.mk.injEq]
            refine ⟨rfl, by simp [List.countP_cons, hcheck, hr] <;> omega,
              by simp [List.countP_cons, hcheck, hr] <;> omega,
              by simp [List.countP_cons, hcheck, hr] <;> omega,
              by simp [List.countP_cons, hcheck, hr] <;> omega,
              by simp [List.countP_cons, hcheck, hr] <;> omega⟩
          · cases h
            · simp only [Bool.true_or, Bool.false_or]
              symm
              rw [decide_eq_true_eq]
              simp [List.countP_cons, hcheck, hr]
            · simp
        · have hcheck : check_timestamp_range r a b = ⟨r, "in_range", ""⟩ := by
            simp only [check_timestamp_range, hr]
            rw [if_neg h1, if_neg h2]
          have hstep : recordTally a b (s, h) r =
              ({ s with
                  total_records := s.total_records + 1
                  in_range := s.in_range + 1 }, h) := by
            simp [recordTally, hcheck]
          rw [hstep, ih]
          rw [Prod.mk.injEq]
          constructor
          · rw [Summary.mk.injEq]
            refine ⟨rfl, by simp [List.countP_cons, hcheck, hr] <;> omega,
              by simp [List.countP_cons, hcheck, hr] <;> omega,
              by simp [List.countP_cons, hcheck, hr] <;> omega,
              by simp [List.countP_cons, hcheck, hr] <;> omega,
              by simp [List.countP_cons, hcheck, hr] <;> omega⟩
          · simp [List.countP_cons, hcheck, hr]

/-- Every record is counted in exactly one of the four outcome buckets. -/
theorem countP_status_partition (a b : ℤ) (recs : List LogRecord) :
    recs.length
      = recs.countP (fun r => (check_timestamp_range r a b).status == "in_range")
      + recs.countP (fun r => (check_timestamp_range r a b).status == "too_early")
      + recs.countP (fun r => (check_timestamp_range r a b).status == "too_late")
      + recs.countP (fun r => r.time_unix_nano.isNone) := by
  induction recs with
  | nil => simp
  | cons r rest ih =>
    rcases hr : r.time_unix_nano with _ | t
    · have hcheck : check_timestamp_range r a b
          = ⟨r, "error", "Missing or invalid timeUnixNano field"⟩ := by
        simp [check_timestamp_range, hr]
      simp [List.countP_cons, hcheck, hr]
      omega
    · by_cases h1 : t < a
      · have hcheck : check_timestamp_range r a b = ⟨r, "too_early", ""⟩ := by
          simp only [check_timestamp_range, hr]
          rw [if_pos h1]
        simp [List.countP_cons, hcheck, hr]
        omega
      · by_cases h2 : b < t
        · have hcheck : check_timestamp_range r a b = ⟨r, "too_late", ""⟩ := by
            simp only [check_timestamp_range, hr]
            rw [if_neg h1, if_pos h2]
          simp [List.countP_cons, hcheck, hr]
          omega
        · have hcheck : check_timestamp_range r a b = ⟨r, "in_range", ""⟩ := by
            simp only [check_timestamp_range, hr]
            rw [if_neg h1, if_neg h2]
          simp [List.countP_cons, hcheck, hr]
          omega

/-- Per stream: record totals split across the per-line outcome sums. -/
theorem streamSum_partition (a b : ℤ) (lines : List JLine) :
    ∀ ln : ℕ,
      streamSum lineRecCount lines ln
        = streamSum (fun l n => lineStatusCount l n a b "in_range") lines ln
        + streamSum (fun l n => lineStatusCount l n a b "too_early") lines ln
        + streamSum (fun l n => lineStatusCount l n a b "too_late") lines ln
        + streamSum lineAbsCount lines ln := by
  induction lines with
  | nil => intro ln; simp [streamSum]
  | cons l rest ih =>
    intro ln
    rw [streamSum, streamSum, streamSum, streamSum, streamSum, ih (ln + 1)]
    rcases hpl : parse_otlp_line l ln with err | recs
    · simp [lineRecCount, lineStatusCount, lineAbsCount, hpl]
    · simp only [lineRecCount, lineStatusCount, lineAbsCount, hpl]
      have := countP_status_partition a b recs
      omega

/-- The per-line loop of `process_stream` in closed form, provided it
completes (no line aborts with an uncaught exception): line and record
totals accumulate, `errors` counts absent-timestamp records plus malformed
lines, and `has_issues` is set iff some record was out of range or errored or
some line failed extraction. -/
theorem processLines_spec (a b : ℤ) (lines : List JLine) :
    ∀ (ln : ℕ) (s : Summary) (h : Bool) (s2 : Summary) (h2 : Bool),
      processLines a b lines ln s h = some (s2, h2) →
      s2.total_lines = s.total_lines + lines.length ∧
      s2.total_records = s.total_records + streamSum lineRecCount lines ln ∧
      s2.in_range = s.in_range
        + streamSum (fun l n => lineStatusCount l n a b "in_range") lines ln ∧
      s2.too_early = s.too_early
        + streamSum (fun l n => lineStatusCount l n a b "too_early") lines ln ∧
      s2.too_late = s.too_late
        + streamSum (fun l n => lineStatusCount l n a b "too_late") lines ln ∧
      s2.errors = s.errors + streamSum lineAbsCount lines ln
        + streamSum lineMalCount lines ln ∧
      (h2 = true ↔ (h = true ∨ 0 <
        streamSum (fun l n => lineStatusCount l n a b "too_early") lines ln
        + streamSum (fun l n => lineStatusCount l n a b "too_late") lines ln
        + streamSum lineAbsCount lines ln + streamSum lineMalCount lines ln)) := by
  induction lines with
  | nil =>
    intro ln s h s2 h2 hp
    rw [processLines] at hp
    simp only [Option.some.injEq, Prod.mk.injEq] at hp
    obtain ⟨rfl, rfl⟩ := hp
    simp [streamSum]
  | cons l rest ih =>
    intro ln s h s2 h2 hp
    rw [processLines] at hp
    rcases hpl : parse_otlp_line l ln with err | recs
    · rcases err with msg | _
      · simp only [hpl] at hp
        obtain ⟨e1, e2, e3, e4, e5, e6, e7⟩ := ih (ln + 1) _ _ s2 h2 hp
        simp only [streamSum]
        have hcounts : lineRecCount l ln = 0 ∧ lineAbsCount l ln = 0 ∧
            lineMalCount l ln = 1 ∧
            (∀ st : String, lineStatusCount l ln a b st = 0) := by
          refine ⟨?_, ?_, ?_, fun st => ?_⟩ <;>
            simp [lineRecCount, lineAbsCount, lineMalCount, lineStatusCount, hpl]
        obtain ⟨hc1, hc2, hc3, hc4⟩ := hcounts
        refine ⟨by simp at e1 ⊢; omega, by rw [hc1]; simp at e2; omega,
          by rw [hc4]; simp at e3; omega, by rw [hc4]; simp at e4; omega,
          by rw [hc4]; simp at e5; omega, by rw [hc2, hc3]; simp at e6; omega, ?_⟩
        rw [e7, hc2, hc3, hc4, hc4]
        cases h <;> simp <;> omega
      · simp only [hpl] at hp
        cases hp
    · simp only [hpl] at hp
      rw [foldl_recordTally] at hp
      dsimp only at hp
      obtain ⟨e1, e2, e3, e4, e5, e6, e7⟩ := ih (ln + 1) _ _ s2 h2 hp
      simp only [streamSum]
      have hc1 : lineRecCount l ln = recs.length := by simp [lineRecCount, hpl]
      have hc2 : lineAbsCount l ln
          = recs.countP (fun r => r.time_unix_nano.isNone) := by
        simp [lineAbsCount, hpl]
      have hc3 : lineMalCount l ln = 0 := by simp [lineMalCount, hpl]
      have hc4 : ∀ st : String, lineStatusCount l ln a b st
          = recs.countP (fun r => (check_timestamp_range r a b).status == st) := by
        intro st
        simp [lineStatusCount, hpl]
      refine ⟨by simp at e1 ⊢; omega, by rw [hc1]; simp at e2; omega,
        by rw [hc4]; simp at e3; omega, by rw [hc4]; simp at e4; omega,
        by rw [hc4]; simp at e5; omega, by rw [hc2, hc3]; simp at e6; omega, ?_⟩
      rw [e7, hc2, hc3, hc4, hc4]
      simp only [Bool.or_eq_true, decide_eq_true_eq]
      cases h <;>
        simp only [Bool.false_eq_true, eq_self_iff_true, false_or, true_or, true_iff,
          iff_true] <;>
        first
          | trivial
          | omega

/-- C10: whenever `process_stream` completes, `total_records` is the sum of
the three in/out-of-range counters plus the number of successfully-extracted
records with an absent timestamp, while `errors` is that absent count plus
the number of lines whose extraction raised a structure error; `total_lines`
counts every line, so a failing line adds one to `errors` and `total_lines`
but nothing to `total_records` — one counter conflating the two error kinds. -/
theorem claim_C10 (lines : List JLine) (a b : ℤ) (sum : Summary) (has : Bool)
    (h : process_stream lines a b = some (sum, has)) :
    sum.total_records = sum.in_range + sum.too_early + sum.too_late
      + streamSum lineAbsCount lines 1 ∧
    sum.errors = streamSum lineAbsCount lines 1 + streamSum lineMalCount lines 1 ∧
    sum.total_lines = lines.length := by
  obtain ⟨e1, e2, e3, e4, e5, e6, e7⟩ :=
    processLines_spec a b lines 1 ⟨0, 0, 0, 0, 0, 0⟩ false sum has h
  have hpart := streamSum_partition a b lines 1
  dsimp only at e1 e2 e3 e4 e5 e6
  refine ⟨by omega, by omega, by omega⟩

/-- C10 witness: one malformed line gives `total_lines = 1`,
`total_records = 0`, `errors = 1`. -/
theorem claim_C10_witness :
    (Summary.mk 1 0 0 0 0 1).total_records
      = (Summary.mk 1 0 0 0 0 1).in_range + (Summary.mk 1 0 0 0 0 1).too_early
        + (Summary.mk 1 0 0 0 0 1).too_late
        + streamSum lineAbsCount [⟨false, none⟩] 1 ∧
    (Summary.mk 1 0 0 0 0 1).errors
      = streamSum lineAbsCount [⟨false, none⟩] 1
        + streamSum lineMalCount [⟨false, none⟩] 1 ∧
    (Summary.mk 1 0 0 0 0 1).total_lines = [(⟨false, none⟩ : JLine)].length :=
  claim_C10 [⟨false, none⟩] 0 1 (Summary.mk 1 0 0 0 0 1) true rfl

/-- C9 counterexample: with valid boundaries `0 < 1`, a stream consisting of
one invalid-JSON line contains zero records — so no record is out-of-range or
errored and the claim requires exit code 0 — yet the tool exits with code 1
(the line-level extraction failure sets `has_issues`). -/
theorem claim_C9_cex :
    mainExit "0" "1" [⟨false, none⟩] = some 1 ∧
    streamSum lineRecCount [⟨false, none⟩] 1 = 0 :=
  ⟨rfl, rfl⟩

/-- C9 (amended): exit code 2 when a boundary fails to normalize or when
`start_ns ≥ end_ns`, and then the input stream is never touched (the result
equals the result on the empty stream); otherwise, when `process_stream`
completes, exit code 1 exactly when some record was out-of-range or errored
**or some line failed extraction** (the amendment), else exit code 0 — the
exit is 1 iff `too_early + too_late + errors` is positive in the summary. -/
theorem claim_C9 :
    (∀ (ss es : String) (lines : List JLine),
      (parse_timestamp ss = .error () ∨ parse_timestamp es = .error ()) →
      mainExit ss es lines = some 2 ∧ mainExit ss es lines = mainExit ss es []) ∧
    (∀ (ss es : String) (lines : List JLine) (a b : ℤ),
      parse_timestamp ss = .ok a → parse_timestamp es = .ok b → b ≤ a →
      mainExit ss es lines = some 2 ∧ mainExit ss es lines = mainExit ss es []) ∧
    (∀ (ss es : String) (lines : List JLine) (a b : ℤ) (sum : Summary) (has : Bool),
      parse_timestamp ss = .ok a → parse_timestamp es = .ok b → a < b →
      process_stream lines a b = some (sum, has) →
      mainExit ss es lines
        = some (if 0 < sum.too_early + sum.too_late + sum.errors then 1 else 0)) := by
  refine ⟨?_, ?_, ?_⟩
  · intro ss es lines hcase
    rcases hss : parse_timestamp ss with _ | sa
    · exact ⟨by simp [mainExit, hss], by simp [mainExit, hss]⟩
    · rcases hes : parse_timestamp es with _ | sb
      · exact ⟨by simp [mainExit, hss, hes], by simp [mainExit, hss, hes]⟩
      · rcases hcase with hbad | hbad
        · rw [hss] at hbad; cases hbad
        · rw [hes] at hbad; cases hbad
  · intro ss es lines a b h1 h2 hba
    constructor
    · simp only [mainExit, h1, h2]
      rw [if_pos hba]
    · simp only [mainExit, h1, h2]
      rw [if_pos hba, if_pos hba]
  · intro ss es lines a b sum has h1 h2 hab hp
    simp only [mainExit, h1, h2]
    rw [if_neg (by omega : ¬ b ≤ a), hp]
    obtain ⟨e1, e2, e3, e4, e5, e6, e7⟩ :=
      processLines_spec a b lines 1 ⟨0, 0, 0, 0, 0, 0⟩ false sum has hp
    dsimp only at e4 e5 e6
    cases hhas : has with
    | true =>
      have hpos : 0 < sum.too_early + sum.too_late + sum.errors := by
        have := e7.mp hhas
        simp only [Bool.false_eq_true, false_or] at this
        omega
      rw [if_pos hpos]
      rfl
    | false =>
      have hz : ¬ 0 < sum.too_early + sum.too_late + sum.errors := by
        intro hcon
        have : has = true := by
          rw [e7]
          right
          omega
        rw [hhas] at this
        cases this
      rw [if_neg hz]
      rfl

/-- C9 witness: a run with valid boundaries and an empty stream exits 0. -/
theorem claim_C9_witness :
    mainExit "0" "1" [] = some (if 0 < (0 : ℕ) + 0 + 0 then 1 else 0) :=
  claim_C9.2.2 "0" "1" [] 0 1000000000 ⟨0, 0, 0, 0, 0, 0⟩ false rfl rfl
    (by decide) rfl

/-! ### Claim C6: ISO 8601 interpretation

To state "a bare date `YYYY-MM-DD` denotes midnight UTC" and "a date-time
without timezone marker is assumed UTC" for every date, we render canonical
zero-padded date and date-time strings and prove what `parse_timestamp`
returns on them. -/

theorem digitChar_isDigit (x : ℕ) : (digitChar x).isDigit = true := by
  unfold digitChar
  split_ifs <;> decide

theorem digitChar_not_space (x : ℕ) : pyIsSpace (digitChar x) = false := by
  unfold digitChar
  split_ifs <;> decide

theorem digitChar_ne_plus (x : ℕ) : digitChar x ≠ '+' := by
  unfold digitChar
  split_ifs <;> decide

theorem digitChar_ne_minus (x : ℕ) : digitChar x ≠ '-' := by
  unfold digitChar
  split_ifs <;> decide

theorem digitChar_beq_dot (x : ℕ) : (digitChar x == '.') = false := by
  unfold digitChar
  split_ifs <;> decide

theorem digitChar_beq_T (x : ℕ) : (digitChar x == 'T') = false := by
  unfold digitChar
  split_ifs <;> decide

theorem digitChar_ne_Z (x : ℕ) : digitChar x ≠ 'Z' := by
  unfold digitChar
  split_ifs <;> decide

theorem digitVal_digitChar (x : ℕ) (hx : x < 10) : digitVal (digitChar x) = x := by
  unfold digitChar
  split_ifs with h0 h1 h2 h3 h4 h5 h6 h7 h8
  · rw [h0]; rfl
  · rw [h1]; rfl
  · rw [h2]; rfl
  · rw [h3]; rfl
  · rw [h4]; rfl
  · rw [h5]; rfl
  · rw [h6]; rfl
  · rw [h7]; rfl
  · rw [h8]; rfl
  · have h9 : x = 9 := by omega
    rw [h9]; rfl

theorem parse4_pad4 (y : ℕ) (hy : y ≤ 9999) :
    ∀ rest : List Char, parse4Digits (pad4 y ++ rest) = some (y, rest) := by
  intro rest
  show parse4Digits (digitChar (y / 1000) :: digitChar (y / 100 % 10) ::
      digitChar (y / 10 % 10) :: digitChar (y % 10) :: rest) = some (y, rest)
  unfold parse4Digits
  dsimp only
  rw [if_pos ⟨digitChar_isDigit _, digitChar_isDigit _, digitChar_isDigit _,
    digitChar_isDigit _⟩]
  rw [digitVal_digitChar _ (by omega), digitVal_digitChar _ (by omega),
    digitVal_digitChar _ (by omega), digitVal_digitChar _ (by omega)]
  simp only [Option.some.injEq, Prod.mk.injEq]
  exact ⟨by omega, trivial⟩

theorem parse2or1_pad2 (ok2 : ℕ → ℕ → Bool) (ok1 : ℕ → Bool) (n : ℕ) (hn : n ≤ 99)
    (hok : ok2 (n / 10) (n % 10) = true) :
    ∀ rest : List Char, parse2or1 ok2 ok1 (pad2 n ++ rest) = some (n, rest) := by
  intro rest
  show parse2or1 ok2 ok1 (digitChar (n / 10) :: digitChar (n % 10) :: rest)
    = some (n, rest)
  unfold parse2or1
  dsimp only
  rw [if_pos ⟨digitChar_isDigit _, digitChar_isDigit _, by
    rw [digitVal_digitChar _ (by omega), digitVal_digitChar _ (by omega)]
    exact hok⟩]
  rw [digitVal_digitChar _ (by omega), digitVal_digitChar _ (by omega)]
  simp only [Option.some.injEq, Prod.mk.injEq]
  exact ⟨by omega, trivial⟩

theorem parseMonth_pad2 (m : ℕ) (hm1 : 1 ≤ m) (hm : m ≤ 12) :
    ∀ rest : List Char, parseMonth (pad2 m ++ rest) = some (m, rest) := by
  refine parse2or1_pad2 _ _ m (by omega) ?_
  simp only [Bool.or_eq_true, Bool.and_eq_true, beq_iff_eq, decide_eq_true_eq]
  omega

theorem parseDay_pad2 (d : ℕ) (hd1 : 1 ≤ d) (hd : d ≤ 31) :
    ∀ rest : List Char, parseDay (pad2 d ++ rest) = some (d, rest) := by
  refine parse2or1_pad2 _ _ d (by omega) ?_
  simp only [Bool.or_eq_true, Bool.and_eq_true, beq_iff_eq, decide_eq_true_eq]
  omega

theorem parseHour_pad2 (hh : ℕ) (hle : hh ≤ 23) :
    ∀ rest : List Char, parseHour (pad2 hh ++ rest) = some (hh, rest) := by
  refine parse2or1_pad2 _ _ hh (by omega) ?_
  simp only [Bool.or_eq_true, Bool.and_eq_true, beq_iff_eq, decide_eq_true_eq]
  omega

theorem parseMinute_pad2 (mi : ℕ) (hle : mi ≤ 59) :
    ∀ rest : List Char, parseMinute (pad2 mi ++ rest) = some (mi, rest) := by
  refine parse2or1_pad2 _ _ mi (by omega) ?_
  simp only [decide_eq_true_eq]
  omega

theorem parseSecond_pad2 (ss : ℕ) (hle : ss ≤ 59) :
    ∀ rest : List Char, parseSecond (pad2 ss ++ rest) = some (ss, rest) := by
  refine parse2or1_pad2 _ _ ss (by omega) ?_
  simp only [Bool.or_eq_true, Bool.and_eq_true, beq_iff_eq, decide_eq_true_eq]
  omega

/-- Round trip for the shared `"%Y-%m-%dT%H:%M:%S"` prefix on a rendered
date-time. -/
theorem parsePrefix_render (y m d hh mi ss : ℕ) (rest : List Char)
    (hy : y ≤ 9999) (hm1 : 1 ≤ m) (hm : m ≤ 12) (hd1 : 1 ≤ d) (hd : d ≤ 31)
    (hhle : hh ≤ 23) (hmile : mi ≤ 59) (hssle : ss ≤ 59) :
    parsePrefix (dtCharsR y m d hh mi ss rest)
      = some (⟨y, m, d, hh, mi, ss, 0, none⟩, rest) := by
  unfold dtCharsR dateCharsR parsePrefix
  rw [parse4_pad4 y hy]
  dsimp only
  rw [if_pos rfl]
  rw [parseMonth_pad2 m hm1 hm]
  dsimp only
  rw [parseDay_pad2 d hd1 hd]
  dsimp only
  rw [if_pos rfl, if_pos (Or.inl rfl)]
  rw [parseHour_pad2 hh hhle]
  dsimp only
  rw [if_pos rfl]
  rw [parseMinute_pad2 mi hmile]
  dsimp only
  rw [if_pos rfl]
  rw [parseSecond_pad2 ss hssle]

theorem mem_pad2_not_space (c : Char) (n : ℕ) (h : c ∈ pad2 n) :
    pyIsSpace c = false := by
  simp only [pad2, List.mem_cons, List.not_mem_nil, or_false] at h
  rcases h with rfl | rfl <;> exact digitChar_not_space _

theorem mem_pad4_not_space (c : Char) (n : ℕ) (h : c ∈ pad4 n) :
    pyIsSpace c = false := by
  simp only [pad4, List.mem_cons, List.not_mem_nil, or_false] at h
  rcases h with rfl | rfl | rfl | rfl <;> exact digitChar_not_space _

/-- All characters of a rendered date-time are non-whitespace. -/
theorem dtCharsR_not_space (y m d hh mi ss : ℕ) :
    ∀ c ∈ dtCharsR y m d hh mi ss [], pyIsSpace c = false := by
  intro c hc
  unfold dtCharsR dateCharsR at hc
  rcases List.mem_append.mp hc with h | h
  · exact mem_pad4_not_space c y h
  · rcases List.mem_cons.mp h with rfl | h
    · rfl
    · rcases List.mem_append.mp h with h | h
      · exact mem_pad2_not_space c m h
      · rcases List.mem_cons.mp h with rfl | h
        · rfl
        · rcases List.mem_append.mp h with h | h
          · exact mem_pad2_not_space c d h
          · rcases List.mem_cons.mp h with rfl | h
            · rfl
            · rcases List.mem_append.mp h with h | h
              · exact mem_pad2_not_space c hh h
              · rcases List.mem_cons.mp h with rfl | h
                · rfl
                · rcases List.mem_append.mp h with h | h
                  · exact mem_pad2_not_space c mi h
                  · rcases List.mem_cons.mp h with rfl | h
                    · rfl
                    · rcases List.mem_append.mp h with h | h
                      · exact mem_pad2_not_space c ss h
                      · cases h

/-- All characters of a rendered bare date are non-whitespace. -/
theorem dateCharsR_not_space (y m d : ℕ) :
    ∀ c ∈ dateCharsR y m d [], pyIsSpace c = false := by
  intro c hc
  unfold dateCharsR at hc
  rcases List.mem_append.mp hc with h | h
  · exact mem_pad4_not_space c y h
  · rcases List.mem_cons.mp h with rfl | h
    · rfl
    · rcases List.mem_append.mp h with h | h
      · exact mem_pad2_not_space c m h
      · rcases List.mem_cons.mp h with rfl | h
        · rfl
        · rcases List.mem_append.mp h with h | h
          · exact mem_pad2_not_space c d h
          · cases h

theorem stripChars_eq_self (cs : List Char) (h : ∀ c ∈ cs, pyIsSpace c = false) :
    stripChars cs = cs := by
  have hdrop : ∀ l : List Char, (∀ c ∈ l, pyIsSpace c = false) →
      l.dropWhile pyIsSpace = l := by
    intro l hl
    cases l with
    | nil => rfl
    | cons a t =>
      rw [List.dropWhile_cons]
      rw [hl a (List.mem_cons_self a t)]
      rfl
  unfold stripChars
  rw [hdrop cs h, hdrop cs.reverse
    (fun c hc => h c (List.mem_reverse.mp hc)), List.reverse_reverse]

/-- `int()` fails on any digit-headed text containing `'-'` later on. -/
theorem intOfChars_digit_dash (x : ℕ) (tail : List Char) (hdash : '-' ∈ tail) :
    intOfChars (digitChar x :: tail) = none := by
  unfold intOfChars
  split
  · rename_i r heq
    exact absurd (List.cons.injEq _ _ _ _ ▸ heq).1 (digitChar_ne_plus x)
  · rename_i r heq
    exact absurd (List.cons.injEq _ _ _ _ ▸ heq).1 (digitChar_ne_minus x)
  · rw [if_neg]
    intro hcl
    have hall := hcl.2
    rw [List.all_cons, Bool.and_eq_true] at hall
    have := List.all_eq_true.mp hall.2 '-' hdash
    cases this

theorem dateCharsR_head (y m d : ℕ) (rest : List Char) :
    dateCharsR y m d rest
      = digitChar (y / 1000) :: (digitChar (y / 100 % 10) :: digitChar (y / 10 % 10) ::
          digitChar (y % 10) :: '-' :: (pad2 m ++ '-' :: (pad2 d ++ rest))) := rfl

theorem pyNumParse_dateChars (y m d : ℕ) (rest : List Char)
    (hdot : hasChar (dateCharsR y m d rest) '.' = false) :
    pyNumParse (dateCharsR y m d rest) = none := by
  unfold pyNumParse
  rw [hdot]
  rw [if_neg (by simp)]
  rw [dateCharsR_head, intOfChars_digit_dash]
  · rfl
  · simp

theorem hasChar_dot_dateChars (y m d : ℕ) :
    hasChar (dateCharsR y m d []) '.' = false := by
  simp [dateCharsR, pad4, pad2, hasChar, digitChar_beq_dot]

theorem hasChar_dot_dtChars (y m d hh mi ss : ℕ) :
    hasChar (dtCharsR y m d hh mi ss []) '.' = false := by
  simp [dtCharsR, dateCharsR, pad4, pad2, hasChar, digitChar_beq_dot]

theorem isBareDate_dateChars (y m d : ℕ) : isBareDate (dateCharsR y m d []) = true := by
  show isBareDate [digitChar (y / 1000), digitChar (y / 100 % 10),
    digitChar (y / 10 % 10), digitChar (y % 10), '-', digitChar (m / 10),
    digitChar (m % 10), '-', digitChar (d / 10), digitChar (d % 10)] = true
  unfold isBareDate
  simp [digitChar_isDigit]

theorem isBareDate_dtChars (y m d hh mi ss : ℕ) :
    isBareDate (dtCharsR y m d hh mi ss []) = false := rfl

theorem daysInMonth_le_31 (y m : ℕ) : daysInMonth y m ≤ 31 := by
  unfold daysInMonth
  split_ifs <;> omega

theorem dtCharsR_reverse (y m d hh mi ss : ℕ) :
    (dtCharsR y m d hh mi ss []).reverse
      = digitChar (ss % 10) :: digitChar (ss / 10) :: ':' :: digitChar (mi % 10) ::
        digitChar (mi / 10) :: ':' :: digitChar (hh % 10) :: digitChar (hh / 10) ::
        'T' :: digitChar (d % 10) :: digitChar (d / 10) :: '-' :: digitChar (m % 10) ::
        digitChar (m / 10) :: '-' :: digitChar (y % 10) :: digitChar (y / 10 % 10) ::
        digitChar (y / 100 % 10) :: digitChar (y / 1000) :: [] := by
  simp [dtCharsR, dateCharsR, pad4, pad2]

theorem endsZ_dtChars (y m d hh mi ss : ℕ) :
    endsZ (dtCharsR y m d hh mi ss []) = false := by
  unfold endsZ
  rw [dtCharsR_reverse]
  split
  · rename_i heq
    exact absurd (List.cons.injEq _ _ _ _ ▸ heq).1 (digitChar_ne_Z (ss % 10))
  · rfl

theorem endsPM0000_dtChars (y m d hh mi ss : ℕ) :
    endsPM0000 (dtCharsR y m d hh mi ss []) = false := by
  unfold endsPM0000
  rw [dtCharsR_reverse]
  split
  · rename_i s t heq
    simp only [List.cons.injEq] at heq
    have hs : s = ':' := heq.2.2.2.2.2.1.symm
    rw [hs]
    rfl
  · rfl

theorem endsOffsetShape_dtChars (y m d hh mi ss : ℕ) :
    endsOffsetShape (dtCharsR y m d hh mi ss []) = false := by
  unfold endsOffsetShape
  rw [dtCharsR_reverse]
  split
  · rename_i m2 m1 h2 h1 s t heq
    simp only [List.cons.injEq] at heq
    have hs : s = ':' := heq.2.2.2.2.2.1.symm
    rw [hs]
    rfl
  · rfl

theorem hasChar_T_dtChars (y m d hh mi ss : ℕ) :
    hasChar (dtCharsR y m d hh mi ss []) 'T' = true := by
  simp [dtCharsR, dateCharsR, pad4, pad2, hasChar]

/-- The four-format loop on a rendered `…THH:MI:SSZ` string: the two
fractional formats fail (no `'.'`), and the `"%Y-%m-%dT%H:%M:%SZ"` format
succeeds with the UTC instant. -/
theorem strptime_chain (y m d hh mi ss : ℕ) (hy1 : 1 ≤ y) (hy : y ≤ 9999)
    (hm1 : 1 ≤ m) (hm : m ≤ 12) (hd1 : 1 ≤ d) (hdm : d ≤ daysInMonth y m)
    (hhle : hh ≤ 23) (hmile : mi ≤ 59) (hssle : ss ≤ 59) :
    strptimeFracZ (dtCharsR y m d hh mi ss ['Z']) = none ∧
    strptimeFracOff (dtCharsR y m d hh mi ss ['Z']) = none ∧
    strptimeZ (dtCharsR y m d hh mi ss ['Z'])
      = some ((daysFromCivil y m d * 86400 + hh * 3600 + mi * 60 + ss) * 10 ^ 9) := by
  have hd31 : d ≤ 31 := le_trans hdm (daysInMonth_le_31 y m)
  have hpp := parsePrefix_render y m d hh mi ss ['Z'] hy hm1 hm hd1 hd31 hhle hmile hssle
  have hvalid : pyDTValid ⟨y, m, d, hh, mi, ss, 0, none⟩ = true := by
    simp only [pyDTValid, Bool.and_eq_true, decide_eq_true_eq]
    exact ⟨⟨hy1, hdm⟩, hssle⟩
  refine ⟨?_, ?_, ?_⟩
  · unfold strptimeFracZ
    rw [hpp]
    dsimp only
    rw [if_neg (by decide : ¬ ('Z' = '.'))]
  · unfold strptimeFracOff
    rw [hpp]
    dsimp only
    rw [if_neg (by decide : ¬ ('Z' = '.'))]
  · unfold strptimeZ
    rw [hpp]
    dsimp only
    rw [if_pos (Or.inl rfl)]
    unfold finishDT
    rw [hvalid]
    rw [if_pos rfl]
    unfold dtToNanos
    simp only [Option.some.injEq, Option.getD_none]
    push_cast
    ring

theorem parse_iso8601_dtChars (y m d hh mi ss : ℕ) (hy1 : 1 ≤ y) (hy : y ≤ 9999)
    (hm1 : 1 ≤ m) (hm : m ≤ 12) (hd1 : 1 ≤ d) (hdm : d ≤ daysInMonth y m)
    (hhle : hh ≤ 23) (hmile : mi ≤ 59) (hssle : ss ≤ 59) :
    parse_iso8601 (dtCharsR y m d hh mi ss [])
      = some ((daysFromCivil y m d * 86400 + hh * 3600 + mi * 60 + ss) * 10 ^ 9) := by
  obtain ⟨h1, h2, h3⟩ := strptime_chain y m d hh mi ss hy1 hy hm1 hm hd1 hdm hhle hmile hssle
  have happ : dtCharsR y m d hh mi ss [] ++ ['Z'] = dtCharsR y m d hh mi ss ['Z'] := by
    simp [dtCharsR, dateCharsR]
  unfold parse_iso8601
  rw [isBareDate_dtChars, if_neg (by decide : ¬ (false = true))]
  dsimp only
  rw [hasChar_T_dtChars, endsZ_dtChars, endsPM0000_dtChars, endsOffsetShape_dtChars]
  rw [if_pos (by decide : (true && !(false || false) && !false) = true)]
  rw [happ, h1, h2, h3]

theorem parse_iso8601_dateChars (y m d : ℕ) (hy1 : 1 ≤ y) (hy : y ≤ 9999)
    (hm1 : 1 ≤ m) (hm : m ≤ 12) (hd1 : 1 ≤ d) (hdm : d ≤ daysInMonth y m) :
    parse_iso8601 (dateCharsR y m d [])
      = some (daysFromCivil y m d * 86400 * 10 ^ 9) := by
  obtain ⟨h1, h2, h3⟩ := strptime_chain y m d 0 0 0 hy1 hy hm1 hm hd1 hdm
    (by omega) (by omega) (by omega)
  have hshape : dateCharsR y m d []
      ++ ['T', '0', '0', ':', '0', '0', ':', '0', '0', 'Z']
      = dtCharsR y m d 0 0 0 ['Z'] := by
    simp [dtCharsR, dateCharsR, pad2, digitChar]
  have hrevZ : (dateCharsR y m d []
      ++ ['T', '0', '0', ':', '0', '0', ':', '0', '0', 'Z']).reverse
      = 'Z' :: '0' :: '0' :: ':' :: '0' :: '0' :: ':' :: '0' :: '0' :: 'T' ::
        digitChar (d % 10) :: digitChar (d / 10) :: '-' :: digitChar (m % 10) ::
        digitChar (m / 10) :: '-' :: digitChar (y % 10) :: digitChar (y / 10 % 10) ::
        digitChar (y / 100 % 10) :: digitChar (y / 1000) :: [] := by
    simp [dateCharsR, pad4, pad2]
  have hz : endsZ (dateCharsR y m d []
      ++ ['T', '0', '0', ':', '0', '0', ':', '0', '0', 'Z']) = true := by
    unfold endsZ
    rw [hrevZ]
    rfl
  have hcond : (hasChar (dateCharsR y m d []
        ++ ['T', '0', '0', ':', '0', '0', ':', '0', '0', 'Z']) 'T'
      && !(endsZ (dateCharsR y m d []
        ++ ['T', '0', '0', ':', '0', '0', ':', '0', '0', 'Z'])
        || endsPM0000 (dateCharsR y m d []
        ++ ['T', '0', '0', ':', '0', '0', ':', '0', '0', 'Z']))
      && !endsOffsetShape (dateCharsR y m d []
        ++ ['T', '0', '0', ':', '0', '0', ':', '0', '0', 'Z'])) = false := by
    rw [hz]
    simp
  unfold parse_iso8601
  rw [isBareDate_dateChars, if_pos rfl]
  dsimp only
  rw [hcond, if_neg (by decide : ¬ (false = true))]
  rw [hshape, h1, h2, h3]
  push_cast
  ring_nf

/-- C6: for every string whose numeric-epoch parse fails, `parse_timestamp`
falls through to the ISO 8601 interpretation; a bare date `YYYY-MM-DD`
denotes midnight UTC on that date, and a date-time without any timezone
marker is assumed UTC (it normalizes to the UTC instant of its components);
the spec's three concrete examples hold, the fractional one within the
claimed 1000 ns tolerance (the idealized model is exact; the binary64
`round(seconds * 1e9)` of the source deviates by well under 1000 ns). -/
theorem claim_C6 :
    (∀ s : String, pyNumParse (stripChars s.data) = none →
      parse_timestamp s = (match parse_iso8601 (stripChars s.data) with
        | some n => Except.ok n
        | none => Except.error ())) ∧
    (∀ y m d : ℕ, 1 ≤ y → y ≤ 9999 → 1 ≤ m → m ≤ 12 → 1 ≤ d → d ≤ daysInMonth y m →
      parse_timestamp (mkDateStr y m d)
        = .ok (daysFromCivil y m d * 86400 * 10 ^ 9)) ∧
    (∀ y m d hh mi ss : ℕ, 1 ≤ y → y ≤ 9999 → 1 ≤ m → m ≤ 12 → 1 ≤ d →
      d ≤ daysInMonth y m → hh ≤ 23 → mi ≤ 59 → ss ≤ 59 →
      parse_timestamp (mkDateTimeStr y m d hh mi ss)
        = .ok ((daysFromCivil y m d * 86400 + hh * 3600 + mi * 60 + ss) * 10 ^ 9)) ∧
    parse_timestamp "2020-01-01" = .ok 1577836800000000000 ∧
    parse_timestamp "2020-06-15T12:30:45Z" = .ok 1592224245000000000 ∧
    ∃ n : ℤ, parse_timestamp "2020-06-15T12:30:45.123Z" = .ok n ∧
      (n - 1592224245123000000).natAbs ≤ 1000 := by
  refine ⟨?_, ?_, ?_, rfl, rfl, ⟨1592224245123000000, rfl, by decide⟩⟩
  · intro s h
    unfold parse_timestamp
    dsimp only
    rw [h]
  · intro y m d hy1 hy hm1 hm hd1 hdm
    have hstrip : stripChars (mkDateStr y m d).data = dateCharsR y m d [] :=
      stripChars_eq_self _ (dateCharsR_not_space y m d)
    have hnum := pyNumParse_dateChars y m d [] (hasChar_dot_dateChars y m d)
    have hiso := parse_iso8601_dateChars y m d hy1 hy hm1 hm hd1 hdm
    unfold parse_timestamp
    rw [hstrip]
    dsimp only
    rw [hnum]
    dsimp only
    rw [hiso]
  · intro y m d hh mi ss hy1 hy hm1 hm hd1 hdm hhle hmile hssle
    have hstrip : stripChars (mkDateTimeStr y m d hh mi ss).data
        = dtCharsR y m d hh mi ss [] :=
      stripChars_eq_self _ (dtCharsR_not_space y m d hh mi ss)
    have hnum : pyNumParse (dtCharsR y m d hh mi ss []) = none :=
      pyNumParse_dateChars y m d _ (hasChar_dot_dtChars y m d hh mi ss)
    have hiso := parse_iso8601_dtChars y m d hh mi ss hy1 hy hm1 hm hd1 hdm
      hhle hmile hssle
    unfold parse_timestamp
    rw [hstrip]
    dsimp only
    rw [hnum]
    dsimp only
    rw [hiso]

/-- C6 witness: the generic bare-date and no-timezone clauses applied to
concrete dates. -/
theorem claim_C6_witness :
    (parse_timestamp (mkDateStr 2020 1 1)
      = .ok (daysFromCivil 2020 1 1 * 86400 * 10 ^ 9)) ∧
    (parse_timestamp (mkDateTimeStr 2020 6 15 12 30 45)
      = .ok ((daysFromCivil 2020 6 15 * 86400 + 12 * 3600 + 30 * 60 + 45) * 10 ^ 9)) :=
  ⟨claim_C6.2.1 2020 1 1 (by decide) (by decide) (by decide) (by decide) (by decide)
      (by decide),
    claim_C6.2.2.1 2020 6 15 12 30 45 (by decide) (by decide) (by decide) (by decide)
      (by decide) (by decide) (by decide) (by decide) (by decide)⟩
